import Mathlib

/-!
Shallow embedding of the double-entry bookkeeping core of the ficusacc
repository (FastAPI + SQLModel backend).

Conventions of the embedding:
* `Decimal` amounts are modelled as `Int` (exact arithmetic, e.g. cents);
  sums and equality tests on `Decimal` are exact in the source, so `Int`
  is faithful for balance checks and totals.
* Python `datetime.date` values are modelled as their proleptic Gregorian
  ordinals (`date.toordinal()`), i.e. as `Int`; `d - timedelta(days=1)`
  becomes `d - 1` and date comparison becomes integer comparison.
  `date(1900, 1, 1).toordinal() = 693596`.
* The database is modelled as an in-memory `Ledger` (lists of rows in
  insertion order); SQL `ORDER BY` is modelled by a stable insertion sort,
  `LIMIT`/`OFFSET` by `take`/`drop`, and lookups by `List.find?`.
* `async` methods raising exceptions are modelled with `Except`.
* Python `dict` (used by `_calculate_account_balances`) is modelled by an
  association list where inserting an existing key overwrites in place and
  updates hit the first (unique) occurrence, matching dict semantics.
-/

namespace Ficus

/-- `app/domain/types.py`: `AccountType` enum. -/
inductive AccountType where
  | asset | liability | equity | revenue | expense
deriving DecidableEq, Repr

/-- `app/infrastructure/database/models/account.py`: the fields of
`AccountModel` relevant to the ledger/report core. -/
structure Account where
  id : Nat
  company_id : Nat
  code : String
  name : String
  account_type : AccountType
  is_active : Bool
deriving DecidableEq, Repr

/-- `app/infrastructure/database/models/transaction.py`:
`TransactionLineModel` (timestamps omitted). -/
structure TransactionLine where
  account_id : Nat
  amount : Int
  description : Option String
  line_order : Nat
deriving DecidableEq, Repr

/-- `app/infrastructure/database/models/transaction.py`:
`TransactionModel` with its `lines` relationship (timestamps omitted). -/
structure Txn where
  id : Nat
  company_id : Nat
  transaction_date : Int
  description : String
  reference : Option String
  is_posted : Bool
  created_by_id : Nat
  lines : List TransactionLine
deriving DecidableEq, Repr

/-- The tenant-scoped database contents the core reads and writes. -/
structure Ledger where
  accounts : List Account
  transactions : List Txn
deriving DecidableEq, Repr

/-- `app/core/exceptions.py`: the error kinds raised by the core
(`EntityNotFoundError`, `ValidationError`, and its two subclasses
`InsufficientTransactionLinesError` / `TransactionNotBalancedError`,
the latter carrying the computed difference). -/
inductive AppError where
  | notFound (entity : String) (id : Nat)
  | validationError (message : String)
  | insufficientLines
  | notBalanced (difference : Int)
deriving DecidableEq, Repr

/-- Python `date(1900, 1, 1).toordinal()`, the hard lower bound used by
`_calculate_account_balances` ("Using a very early start date"). -/
def date_1900_01_01 : Int := 693596

/-- Stable insertion of `x` into a `lt`-sorted list, placing `x` after
existing elements it does not strictly precede. -/
def insertSorted (lt : α → α → Bool) (x : α) : List α → List α
  | [] => [x]
  | y :: ys => if lt x y then x :: y :: ys else y :: insertSorted lt x ys

/-- Stable sort (models SQL `ORDER BY` / Python `sorted`, both stable in
this embedding's deterministic reading). -/
def sortBy (lt : α → α → Bool) (l : List α) : List α :=
  l.foldl (fun acc x => insertSorted lt x acc) []

/-- Ascending comparison on transaction dates. -/
def txnDateLt (a b : Txn) : Bool := decide (a.transaction_date < b.transaction_date)

/-- Descending comparison on transaction dates (`ORDER BY ... DESC`). -/
def txnDateGt (a b : Txn) : Bool := decide (b.transaction_date < a.transaction_date)

/-- Code-point comparison of characters. -/
def charLtb (c d : Char) : Bool := decide (c.toNat < d.toNat)

/-- Lexicographic comparison of character lists. -/
def strLtAux : List Char → List Char → Bool
  | [], [] => false
  | [], _ :: _ => true
  | _ :: _, [] => false
  | c :: cs, d :: ds =>
    if charLtb c d then true else if charLtb d c then false else strLtAux cs ds

/-- Lexicographic string comparison by code points: the order Python's
`str <` (used by `sorted`/`list.sort` keys) and SQL `ORDER BY code` apply
to account codes. -/
def codeLt (a b : String) : Bool := strLtAux a.data b.data

/-- Ascending comparison on account codes. -/
def accountCodeLt (a b : Account) : Bool := codeLt a.code b.code

/-! ## Account repository
(`app/infrastructure/repositories/account_repository.py`) -/

/-- `SQLModelAccountRepository.get_by_id_for_tenant`. -/
def account_get_by_id_for_tenant (s : Ledger) (id company_id : Nat) : Option Account :=
  s.accounts.find? (fun a => a.id == id && a.company_id == company_id)

/-- `SQLModelAccountRepository.get_all_for_tenant`: company filter,
`ORDER BY code`, offset/limit. -/
def account_get_all_for_tenant (s : Ledger) (company_id skip limit : Nat) : List Account :=
  (((sortBy accountCodeLt (s.accounts.filter (fun a => a.company_id == company_id)))).drop skip).take limit

/-! ## Transaction repository
(`app/infrastructure/repositories/transaction_repository.py`) -/

/-- `line_order = idx` assignment performed by the repository when it
persists a line set (`for idx, line in enumerate(...)`). -/
def resequence (lines : List TransactionLine) : List TransactionLine :=
  lines.enum.map (fun p => { p.2 with line_order := p.1 })

/-- `SQLModelTransactionRepository.get_by_id_for_tenant` (also
`get_with_lines`, which delegates to it). -/
def get_with_lines (s : Ledger) (transaction_id company_id : Nat) : Option Txn :=
  s.transactions.find? (fun t => t.id == transaction_id && t.company_id == company_id)

/-- `SQLModelTransactionRepository.create`: inserts the header, then the
lines with `line_order` = position, and returns the reloaded row.
`newId` stands for the autoincrement id assigned by the database. -/
def repo_create_transaction (s : Ledger) (entity : Txn) (newId : Nat) : Ledger × Txn :=
  let stored := { entity with id := newId, lines := resequence entity.lines }
  ({ s with transactions := s.transactions ++ [stored] }, stored)

/-- `SQLModelTransactionRepository.update`: fetches by id (no tenant
filter in the SQL), overwrites the header fields, replaces the whole line
set re-sequencing `line_order`, and returns the reloaded row. -/
def repo_update_transaction (s : Ledger) (id : Nat) (entity : Txn) : Option (Ledger × Txn) :=
  match s.transactions.find? (fun t => t.id == id) with
  | none => none
  | some old =>
    let updated := { old with
      transaction_date := entity.transaction_date,
      description := entity.description,
      reference := entity.reference,
      is_posted := entity.is_posted,
      lines := resequence entity.lines }
    some ({ s with transactions := s.transactions.map (fun t => if t.id == id then updated else t) },
          updated)

/-- `SQLModelTransactionRepository.delete_for_tenant`. -/
def repo_delete_for_tenant (s : Ledger) (id company_id : Nat) : Option Ledger :=
  match s.transactions.find? (fun t => t.id == id && t.company_id == company_id) with
  | none => none
  | some _ =>
    some { s with transactions :=
      s.transactions.eraseP (fun t => t.id == id && t.company_id == company_id) }

/-- `SQLModelTransactionRepository.get_by_date_range`: company filter,
inclusive bounds, `ORDER BY transaction_date` ascending. -/
def get_by_date_range (s : Ledger) (company_id : Nat) (start_date end_date : Int) : List Txn :=
  sortBy txnDateLt (s.transactions.filter (fun t =>
    t.company_id == company_id
      && decide (start_date ≤ t.transaction_date)
      && decide (t.transaction_date ≤ end_date)))

/-- `SQLModelTransactionRepository.get_by_account`: join against lines on
`account_id`, optional inclusive date bounds, ascending order, distinct. -/
def get_by_account (s : Ledger) (company_id account_id : Nat)
    (start_date end_date : Option Int) : List Txn :=
  let base := s.transactions.filter (fun t =>
    t.company_id == company_id && t.lines.any (fun l => l.account_id == account_id))
  let base1 := match start_date with
    | none => base
    | some d => base.filter (fun t => decide (d ≤ t.transaction_date))
  let base2 := match end_date with
    | none => base1
    | some d => base1.filter (fun t => decide (t.transaction_date ≤ d))
  sortBy txnDateLt base2

/-- `SQLModelTransactionRepository.get_posted`: company filter plus
`TransactionModel.is_posted`, date descending, offset/limit. -/
def get_posted (s : Ledger) (company_id skip limit : Nat) : List Txn :=
  (((sortBy txnDateGt (s.transactions.filter (fun t =>
    t.company_id == company_id && t.is_posted)))).drop skip).take limit

/-- `SQLModelTransactionRepository.get_unposted`: the source's filter is
`TransactionModel.is_posted` — the same predicate as `get_posted`,
despite the docstring "Get all unposted (draft) transactions". -/
def get_unposted (s : Ledger) (company_id skip limit : Nat) : List Txn :=
  (((sortBy txnDateGt (s.transactions.filter (fun t =>
    t.company_id == company_id && t.is_posted)))).drop skip).take limit

/-! ## Transaction service
(`app/application/services/transaction_service.py`) -/

/-- A line item as submitted to the service (`{"account_id": ...,
"amount": ..., "description": ...}` dict). -/
structure LineInput where
  account_id : Nat
  amount : Int
  description : Option String
deriving DecidableEq, Repr

/-- The `TransactionLine(account_id=..., amount=..., description=...)`
construction performed on each submitted dict (`line_order` takes the
model's default `0` until the repository re-sequences it). -/
def toTxnLine (li : LineInput) : TransactionLine :=
  { account_id := li.account_id, amount := li.amount,
    description := li.description, line_order := 0 }

/-- `TransactionService._validate_transaction_lines`. -/
def validate_transaction_lines (lines : List TransactionLine) : Except AppError Unit :=
  if lines.length < 2 then
    .error .insufficientLines
  else
    let total := (lines.map (fun l => l.amount)).sum
    if total ≠ 0 then .error (.notBalanced total) else .ok ()

/-- The message `f"Account {account.code} is inactive and cannot be used"`. -/
def inactiveMsg (a : Account) : String :=
  "Account " ++ a.code ++ " is inactive and cannot be used"

/-- `TransactionService._validate_accounts_exist`: per line, in order,
resolve the account in the tenant, failing on the first line whose
account is missing or inactive. -/
def validate_accounts_exist (s : Ledger) (company_id : Nat) :
    List TransactionLine → Except AppError Unit
  | [] => .ok ()
  | l :: rest =>
    match account_get_by_id_for_tenant s l.account_id company_id with
    | none => .error (.notFound "Account" l.account_id)
    | some a =>
      if a.is_active then validate_accounts_exist s company_id rest
      else .error (.validationError (inactiveMsg a))

/-- `TransactionService.create_transaction`. -/
def create_transaction (s : Ledger) (company_id user_id : Nat) (transaction_date : Int)
    (description : String) (lines : List LineInput) (reference : Option String)
    (is_posted : Bool) (newId : Nat) : Except AppError (Ledger × Txn) :=
  let txnLines := lines.map toTxnLine
  match validate_transaction_lines txnLines with
  | .error e => .error e
  | .ok _ =>
    match validate_accounts_exist s company_id txnLines with
    | .error e => .error e
    | .ok _ =>
      .ok (repo_create_transaction s
        { id := 0, company_id := company_id, transaction_date := transaction_date,
          description := description, reference := reference, is_posted := is_posted,
          created_by_id := user_id, lines := txnLines } newId)

/-- `TransactionService.update_transaction`. -/
def update_transaction (s : Ledger) (company_id transaction_id : Nat)
    (transaction_date : Option Int) (description : Option String)
    (reference : Option String) (lines : Option (List LineInput)) :
    Except AppError (Ledger × Txn) :=
  match get_with_lines s transaction_id company_id with
  | none => .error (.notFound "Transaction" transaction_id)
  | some t =>
    if t.is_posted then
      .error (.validationError "Cannot update a posted transaction")
    else
      let t1 := { t with
        transaction_date := transaction_date.getD t.transaction_date,
        description := description.getD t.description,
        reference := match reference with | none => t.reference | some r => some r }
      match lines with
      | none =>
        match repo_update_transaction s transaction_id t1 with
        | none => .error (.notFound "Transaction" transaction_id)
        | some r => .ok r
      | some ls =>
        let txnLines := ls.map toTxnLine
        match validate_transaction_lines txnLines with
        | .error e => .error e
        | .ok _ =>
          match validate_accounts_exist s company_id txnLines with
          | .error e => .error e
          | .ok _ =>
            match repo_update_transaction s transaction_id { t1 with lines := txnLines } with
            | none => .error (.notFound "Transaction" transaction_id)
            | some r => .ok r

/-- `TransactionService.delete_transaction` (returns the new state in
place of Python's `True`). -/
def delete_transaction (s : Ledger) (company_id transaction_id : Nat) :
    Except AppError Ledger :=
  match get_with_lines s transaction_id company_id with
  | none => .error (.notFound "Transaction" transaction_id)
  | some t =>
    if t.is_posted then
      .error (.validationError "Cannot delete a posted transaction")
    else
      match repo_delete_for_tenant s transaction_id company_id with
      | none => .error (.notFound "Transaction" transaction_id)
      | some s' => .ok s'

/-- The ledger state seen after a service call that returns state on
success: on failure the store is untouched. -/
def ledgerAfter (s : Ledger) : Except AppError (Ledger × Txn) → Ledger
  | .ok (s', _) => s'
  | .error _ => s

/-- Same, for `delete_transaction`. -/
def ledgerAfterDelete (s : Ledger) : Except AppError Ledger → Ledger
  | .ok s' => s'
  | .error _ => s

/-! ## Reporting service
(`app/application/services/reporting_service.py`) -/

/-- `AccountBalance` dataclass: account with its calculated balance. -/
structure AccountBalance where
  account : Account
  debit_total : Int
  credit_total : Int
  balance : Int
deriving DecidableEq, Repr

/-- Ascending comparison of two `AccountBalance`s by account code
(`key=lambda x: x.account.code`). -/
def balCodeLt (a b : AccountBalance) : Bool := codeLt a.account.code b.account.code

/-- The `balances: dict[int, AccountBalance]` of the balance folds,
modelled as an association list with Python-dict semantics. -/
abbrev BalDict := List (Nat × AccountBalance)

/-- `balances[k] = v`: overwrites in place if the key exists, appends
otherwise (Python dict assignment). -/
def dictInsert (k : Nat) (v : AccountBalance) : BalDict → BalDict
  | [] => [(k, v)]
  | (k', v') :: rest =>
    if k' == k then (k, v) :: rest else (k', v') :: dictInsert k v rest

/-- `k in balances`. -/
def dictContains (k : Nat) : BalDict → Bool
  | [] => false
  | (k', _) :: rest => k' == k || dictContains k rest

/-- In-place mutation `f` of the entry at key `k` (no-op when absent). -/
def dictUpdate (k : Nat) (f : AccountBalance → AccountBalance) : BalDict → BalDict
  | [] => []
  | (k', v) :: rest =>
    if k' == k then (k', f v) :: rest else (k', v) :: dictUpdate k f rest

/-- `balances.get(k)`. -/
def dictLookup (k : Nat) : BalDict → Option AccountBalance
  | [] => none
  | (k', v) :: rest => if k' == k then some v else dictLookup k rest

/-- The zero-initialisation loop `balances[account.id] = AccountBalance(
account=account, debit_total=0, credit_total=0, balance=0)`. -/
def initBalances (accounts : List Account) : BalDict :=
  accounts.foldl (fun d a =>
    dictInsert a.id { account := a, debit_total := 0, credit_total := 0, balance := 0 } d) []

/-- The per-line accumulation: `if line.account_id in balances: if
line.amount > 0: debit_total += line.amount else: credit_total +=
abs(line.amount)`. -/
def applyLine (d : BalDict) (l : TransactionLine) : BalDict :=
  if dictContains l.account_id d then
    if 0 < l.amount then
      dictUpdate l.account_id (fun b => { b with debit_total := b.debit_total + l.amount }) d
    else
      dictUpdate l.account_id (fun b => { b with credit_total := b.credit_total + |l.amount| }) d
  else d

/-- The `for line in txn.lines` inner loop. -/
def applyTxn (d : BalDict) (t : Txn) : BalDict :=
  t.lines.foldl applyLine d

/-- The final pass `balance.balance = balance.debit_total -
balance.credit_total`. -/
def finalizeBalances (d : BalDict) : BalDict :=
  d.map (fun kv => (kv.1, { kv.2 with balance := kv.2.debit_total - kv.2.credit_total }))

/-- Zero-init then per-line accumulation then net-balance pass: the common
shape of `_calculate_account_balances` and the restricted fold inside
`generate_income_statement`. -/
def balanceFold (accounts : List Account) (transactions : List Txn) : BalDict :=
  finalizeBalances (transactions.foldl applyTxn (initBalances accounts))

/-- The account scope of `_calculate_account_balances`: accounts fetched
with `skip=0, limit=10000`; an `account_types` argument that is `None` or
an empty list (falsy `if account_types:`) applies no type filter. -/
def calcScope (s : Ledger) (company_id : Nat)
    (account_types : Option (List AccountType)) : List Account :=
  let accounts0 := account_get_all_for_tenant s company_id 0 10000
  match account_types with
  | none => accounts0
  | some ts =>
    if ts.isEmpty then accounts0
    else accounts0.filter (fun a => ts.contains a.account_type)

/-- `ReportingService._calculate_account_balances`: transactions fetched
with `get_by_date_range(company_id, date(1900, 1, 1), as_of_date)` and
restricted to posted ones, then folded into the per-account totals. -/
def calculate_account_balances (s : Ledger) (company_id : Nat) (as_of_date : Int)
    (account_types : Option (List AccountType)) : BalDict :=
  balanceFold (calcScope s company_id account_types)
    ((get_by_date_range s company_id date_1900_01_01 as_of_date).filter
      (fun t => t.is_posted))

/-- `TrialBalanceReport` dataclass. -/
structure TrialBalanceReport where
  as_of_date : Int
  accounts : List AccountBalance
  total_debits : Int
  total_credits : Int
deriving DecidableEq, Repr

/-- `ReportingService.generate_trial_balance`: keep non-zero balances,
sort by account code, total the debit and credit columns. -/
def generate_trial_balance (s : Ledger) (company_id : Nat) (as_of_date : Int) :
    TrialBalanceReport :=
  let balances := calculate_account_balances s company_id as_of_date none
  let account_balances :=
    sortBy balCodeLt ((balances.map Prod.snd).filter (fun b => b.balance != 0))
  { as_of_date := as_of_date
    accounts := account_balances
    total_debits := (account_balances.map (fun b => b.debit_total)).sum
    total_credits := (account_balances.map (fun b => b.credit_total)).sum }

/-- `JournalEntry` dataclass: a transaction with its resolved debit and
credit splits. -/
structure JournalEntry where
  transaction : Txn
  debits : List (Account × Int)
  credits : List (Account × Int)
deriving DecidableEq, Repr

/-- `JournalReport` dataclass. -/
structure JournalReport where
  start_date : Int
  end_date : Int
  entries : List JournalEntry
deriving DecidableEq, Repr

/-- `account_map = {a.id: a for a in accounts}` followed by
`account_map.get(line.account_id)` (a duplicate id would keep the last
inserted account, hence the reverse-first-match). -/
def accountMapGet (accounts : List Account) (k : Nat) : Option Account :=
  accounts.reverse.find? (fun a => a.id == k)

/-- One step of `generate_journal`'s line loop: a line whose account
resolves is appended to the debit list when `amount > 0` and to the
credit list (as `abs(amount)`) otherwise; an unresolvable line is
dropped. -/
def journalStep (accounts : List Account)
    (acc : List (Account × Int) × List (Account × Int)) (l : TransactionLine) :
    List (Account × Int) × List (Account × Int) :=
  match accountMapGet accounts l.account_id with
  | none => acc
  | some a =>
    if (0 : Int) < l.amount then (acc.1 ++ [(a, l.amount)], acc.2)
    else (acc.1, acc.2 ++ [(a, |l.amount|)])

/-- The per-transaction split loop of `generate_journal`. -/
def mkJournalEntry (accounts : List Account) (t : Txn) : JournalEntry :=
  let dc := t.lines.foldl (journalStep accounts) ([], [])
  { transaction := t, debits := dc.1, credits := dc.2 }

/-- `ReportingService.generate_journal` (entries in the repository's
ascending date order). -/
def generate_journal (s : Ledger) (company_id : Nat) (start_date end_date : Int) :
    JournalReport :=
  let transactions := get_by_date_range s company_id start_date end_date
  let accounts := account_get_all_for_tenant s company_id 0 10000
  { start_date := start_date
    end_date := end_date
    entries := transactions.map (mkJournalEntry accounts) }

/-- `app/api/v1/reports.py` `get_journal`: converts each entry 1:1 into
the response schema and then executes `entries.reverse()` before
returning. -/
def get_journal_api (s : Ledger) (company_id : Nat) (start_date end_date : Int) :
    JournalReport :=
  let report := generate_journal s company_id start_date end_date
  { report with entries := report.entries.reverse }

/-- `LedgerEntry` dataclass: one general-ledger row. -/
structure LedgerEntry where
  date : Int
  description : String
  reference : Option String
  debit : Int
  credit : Int
  balance : Int
deriving DecidableEq, Repr

/-- `GeneralLedgerReport` dataclass. -/
structure GeneralLedgerReport where
  account : Account
  start_date : Int
  end_date : Int
  opening_balance : Int
  entries : List LedgerEntry
  closing_balance : Int
deriving DecidableEq, Repr

/-- One step of `generate_general_ledger`'s line loop: a line hitting the
requested account appends one ledger row (debit for a positive amount,
credit as `abs(amount)` for a negative one) and advances the running
balance by `line.amount`. -/
def glStep (account_id : Nat) (t : Txn) (acc2 : List LedgerEntry × Int)
    (l : TransactionLine) : List LedgerEntry × Int :=
  if l.account_id == account_id then
    (acc2.1 ++ [{ date := t.transaction_date, description := t.description,
                  reference := t.reference,
                  debit := if 0 < l.amount then l.amount else 0,
                  credit := if l.amount < 0 then |l.amount| else 0,
                  balance := acc2.2 + l.amount }], acc2.2 + l.amount)
  else acc2

/-- The running (`entries`, `running_balance`) accumulation of
`generate_general_ledger`'s main loop, over one transaction's lines:
draft transactions are skipped before this is reached. -/
def glApplyTxn (account_id : Nat) (acc : List LedgerEntry × Int) (t : Txn) :
    List LedgerEntry × Int :=
  if t.is_posted then t.lines.foldl (glStep account_id t) acc
  else acc

/-- `ReportingService.generate_general_ledger`: resolve the account
(404 on absence), take the as-of balance at `start_date - 1 day` as the
opening balance (`0` when the account is not in the fold's scope), then
walk the account's in-range transactions in ascending date order,
emitting one row per matching line with a running balance. -/
def generate_general_ledger (s : Ledger) (company_id account_id : Nat)
    (start_date end_date : Int) : Except AppError GeneralLedgerReport :=
  match account_get_by_id_for_tenant s account_id company_id with
  | none => .error (.notFound "Account" account_id)
  | some account =>
    let opening_balances := calculate_account_balances s company_id (start_date - 1) none
    let opening := match dictLookup account_id opening_balances with
      | some b => b.balance
      | none => 0
    let transactions := get_by_account s company_id account_id (some start_date) (some end_date)
    let result := (sortBy txnDateLt transactions).foldl (glApplyTxn account_id) ([], opening)
    .ok { account := account, start_date := start_date, end_date := end_date,
          opening_balance := opening, entries := result.1, closing_balance := result.2 }

/-- `IncomeStatementReport` dataclass. -/
structure IncomeStatementReport where
  start_date : Int
  end_date : Int
  revenues : List AccountBalance
  expenses : List AccountBalance
  total_revenue : Int
  total_expenses : Int
  net_income : Int
deriving DecidableEq, Repr

/-- The account scope of `generate_income_statement`:
`revenue_accounts + expense_accounts`, from the tenant's accounts. -/
def incomeScope (s : Ledger) (company_id : Nat) : List Account :=
  let accounts := account_get_all_for_tenant s company_id 0 10000
  accounts.filter (fun a => a.account_type == AccountType.revenue)
    ++ accounts.filter (fun a => a.account_type == AccountType.expense)

/-- The presentation part of `generate_income_statement`: group the folded
balances by type, sort by code, and total (`Σ|balance|` for credit-normal
revenue, `Σ balance` for debit-normal expenses). -/
def mkIncomeStatement (start_date end_date : Int) (bals : BalDict) : IncomeStatementReport :=
  let revenues := sortBy balCodeLt
    ((bals.map Prod.snd).filter (fun b => b.account.account_type == AccountType.revenue))
  let expenses := sortBy balCodeLt
    ((bals.map Prod.snd).filter (fun b => b.account.account_type == AccountType.expense))
  let total_revenue := (revenues.map (fun b => |b.balance|)).sum
  let total_expenses := (expenses.map (fun b => b.balance)).sum
  { start_date := start_date, end_date := end_date,
    revenues := revenues, expenses := expenses,
    total_revenue := total_revenue, total_expenses := total_expenses,
    net_income := total_revenue - total_expenses }

/-- `ReportingService.generate_income_statement`: a separate fold over
only the posted transactions inside `[start_date, end_date]`, scoped to
the revenue and expense accounts. -/
def generate_income_statement (s : Ledger) (company_id : Nat) (start_date end_date : Int) :
    IncomeStatementReport :=
  mkIncomeStatement start_date end_date
    (balanceFold (incomeScope s company_id)
      ((get_by_date_range s company_id start_date end_date).filter (fun t => t.is_posted)))

/-! ## Derived definitions used by the verification -/

/-- Sortedness with respect to a boolean strict comparator: no later
element strictly precedes an earlier one. -/
def SortedBy (lt : α → α → Bool) (l : List α) : Prop :=
  l.Pairwise (fun a b => lt b a = false)

/-- The key list of a balance dictionary. -/
def keysList (d : BalDict) : List Nat := d.map Prod.fst

/-- The effect of one line on its account's totals (the body of the
`if line.amount > 0` branch pair of the balance folds). -/
def lineAdd (l : TransactionLine) (b : AccountBalance) : AccountBalance :=
  if 0 < l.amount then { b with debit_total := b.debit_total + l.amount }
  else { b with credit_total := b.credit_total + |l.amount| }

/-- Sum of the positive amounts of the lines hitting account `k`. -/
def linesDebit (k : Nat) (ls : List TransactionLine) : Int :=
  ((ls.filter (fun l => l.account_id == k && decide (0 < l.amount))).map (fun l => l.amount)).sum

/-- Sum of the absolute values of the non-positive amounts of the lines
hitting account `k` (a zero amount contributes `|0| = 0`). -/
def linesCredit (k : Nat) (ls : List TransactionLine) : Int :=
  ((ls.filter (fun l => l.account_id == k && !decide (0 < l.amount))).map (fun l => |l.amount|)).sum

/-- Sum of the strictly negative amounts' absolute values of the lines
hitting account `k` ("sum of absolute values of negative line amounts"). -/
def linesCreditNeg (k : Nat) (ls : List TransactionLine) : Int :=
  ((ls.filter (fun l => l.account_id == k && decide (l.amount < 0))).map (fun l => |l.amount|)).sum

/-- Total debit contribution of a transaction list to account `k`. -/
def txnsDebit (k : Nat) (ts : List Txn) : Int :=
  (ts.map (fun t => linesDebit k t.lines)).sum

/-- Total credit contribution of a transaction list to account `k`. -/
def txnsCredit (k : Nat) (ts : List Txn) : Int :=
  (ts.map (fun t => linesCredit k t.lines)).sum

/-- The transactions a cumulative as-of fold draws on: the company's
posted transactions with `date(1900,1,1) ≤ transaction_date ≤ bound`
(stated over the raw store, in insertion order). -/
def postedInRange (company_id : Nat) (start_date end_date : Int) (t : Txn) : Bool :=
  t.company_id == company_id && decide (start_date ≤ t.transaction_date)
    && decide (t.transaction_date ≤ end_date) && t.is_posted

/-- Sum over a dictionary's values of `debit_total - credit_total`. -/
def dictDC (d : BalDict) : Int :=
  (d.map (fun kv => kv.2.debit_total - kv.2.credit_total)).sum

/-- Running cumulative sums: `runningBalances b [x1, x2, ...] =
[b + x1, b + x1 + x2, ...]`. -/
def runningBalances (b : Int) : List Int → List Int
  | [] => []
  | x :: xs => (b + x) :: runningBalances (b + x) xs

/-- Net amount a transaction moves through account `k`
(`Σ line.amount` over its lines with `account_id = k`). -/
def txnAccountSum (k : Nat) (t : Txn) : Int :=
  ((t.lines.filter (fun l => l.account_id == k)).map (fun l => l.amount)).sum

/-- Net in-range posted movement of account `k` for a company and period:
what the general-ledger entries must add up to. -/
def glMovement (s : Ledger) (company_id account_id : Nat) (start_date end_date : Int) : Int :=
  ((s.transactions.filter (postedInRange company_id start_date end_date)).map
    (txnAccountSum account_id)).sum

/-- The debit split of a transaction in the journal report: its lines
with a resolvable account and positive amount, in line order. -/
def journalDebits (accounts : List Account) (t : Txn) : List (Account × Int) :=
  t.lines.filterMap (fun l =>
    match accountMapGet accounts l.account_id with
    | none => none
    | some a => if (0 : Int) < l.amount then some (a, l.amount) else none)

/-- The credit split of a transaction in the journal report: its lines
with a resolvable account and non-positive amount, as absolute values,
in line order. -/
def journalCredits (accounts : List Account) (t : Txn) : List (Account × Int) :=
  t.lines.filterMap (fun l =>
    match accountMapGet accounts l.account_id with
    | none => none
    | some a => if (0 : Int) < l.amount then none else some (a, |l.amount|))

/-- Remove from a transaction every line whose account is not among
`ids` (used to state that such lines contribute nothing to a fold). -/
def dropLinesNotIn (ids : List Nat) (t : Txn) : Txn :=
  { t with lines := t.lines.filter (fun l => ids.contains l.account_id) }

/-- Total "absolute values of negative line amounts" contribution of a
transaction list to account `k` (the spec's wording for credit totals). -/
def txnsCreditNeg (k : Nat) (ts : List Txn) : Int :=
  (ts.map (fun t => linesCreditNeg k t.lines)).sum

/-- Invariant of the general-ledger fold state: every emitted row's
`balance` is the running cumulative sum from `opening`, and the running
balance equals `opening` plus the sum of the rows' net movements. -/
def GlInv (opening : Int) (st : List LedgerEntry × Int) : Prop :=
  st.1.map (fun e => e.balance) =
    runningBalances opening (st.1.map (fun e => e.debit - e.credit)) ∧
  st.2 = opening + (st.1.map (fun e => e.debit - e.credit)).sum

/-- A line's account exists in the tenant and is active: the per-line
condition `_validate_accounts_exist` enforces. -/
def GoodLine (s : Ledger) (company_id : Nat) (l : TransactionLine) : Prop :=
  ∃ a, account_get_by_id_for_tenant s l.account_id company_id = some a ∧ a.is_active = true

/-- The ledger with every line referencing an account outside the as-of
calculator's scope removed from every transaction. -/
def dropOutOfScopeAsOf (s : Ledger) (company_id : Nat)
    (account_types : Option (List AccountType)) : Ledger :=
  { accounts := s.accounts,
    transactions := s.transactions.map
      (dropLinesNotIn ((calcScope s company_id account_types).map (fun a => a.id))) }

/-- The ledger with every line referencing an account outside the income
statement's revenue/expense scope removed from every transaction. -/
def dropOutOfScopeIncome (s : Ledger) (company_id : Nat) : Ledger :=
  { accounts := s.accounts,
    transactions := s.transactions.map
      (dropLinesNotIn ((incomeScope s company_id).map (fun a => a.id))) }

/-! ## Concrete data for witnesses and counterexamples -/

/-- Demo asset account `1000 Cash` of company 1. -/
def wAcc1 : Account :=
  { id := 1, company_id := 1, code := "1000", name := "Cash",
    account_type := AccountType.asset, is_active := true }

/-- Demo revenue account `4000 Sales` of company 1. -/
def wAcc2 : Account :=
  { id := 2, company_id := 1, code := "4000", name := "Sales",
    account_type := AccountType.revenue, is_active := true }

/-- Demo inactive expense account of company 1. -/
def wAccInactive : Account :=
  { id := 3, company_id := 1, code := "5000", name := "Old",
    account_type := AccountType.expense, is_active := false }

/-- Demo posted balanced transaction (`Cash sale`, +100 / -100). -/
def wTxnPosted : Txn :=
  { id := 1, company_id := 1, transaction_date := 700000, description := "Cash sale",
    reference := none, is_posted := true, created_by_id := 1,
    lines := [{ account_id := 1, amount := 100, description := none, line_order := 0 },
              { account_id := 2, amount := -100, description := none, line_order := 1 }] }

/-- Demo draft balanced transaction. -/
def wTxnDraft : Txn :=
  { id := 2, company_id := 1, transaction_date := 700001, description := "Draft entry",
    reference := none, is_posted := false, created_by_id := 1,
    lines := [{ account_id := 1, amount := 50, description := none, line_order := 0 },
              { account_id := 2, amount := -50, description := none, line_order := 1 }] }

/-- Demo ledger: two active accounts, one inactive, one posted and one
draft transaction. -/
def wLedger : Ledger :=
  { accounts := [wAcc1, wAcc2, wAccInactive], transactions := [wTxnPosted, wTxnDraft] }

/-- The general-ledger report the C4 witness computes for account 1 of
the demo ledger over [699999, 700050]. -/
def wGLReport : GeneralLedgerReport :=
  { account := wAcc1, start_date := 699999, end_date := 700050, opening_balance := 0,
    entries := [{ date := 700000, description := "Cash sale", reference := none,
                  debit := 100, credit := 0, balance := 100 }],
    closing_balance := 100 }

/-- A posted balanced transaction dated 1899-12-31 (ordinal 693595, one
day before the `date(1900, 1, 1)` lower bound of the as-of fold). -/
def cexPre1900Txn : Txn :=
  { id := 1, company_id := 1, transaction_date := 693595, description := "pre-1900",
    reference := none, is_posted := true, created_by_id := 1,
    lines := [{ account_id := 1, amount := 100, description := none, line_order := 0 },
              { account_id := 2, amount := -100, description := none, line_order := 1 }] }

/-- Ledger whose only posted transaction predates 1900-01-01. -/
def cex5Ledger : Ledger :=
  { accounts := [wAcc1, wAcc2], transactions := [cexPre1900Txn] }

/-- A posted, individually balanced transaction one of whose lines
references account id 9, absent from the chart. -/
def cex3Txn : Txn :=
  { id := 1, company_id := 1, transaction_date := 700000, description := "dangling",
    reference := none, is_posted := true, created_by_id := 1,
    lines := [{ account_id := 1, amount := 100, description := none, line_order := 0 },
              { account_id := 9, amount := -100, description := none, line_order := 1 }] }

/-- Ledger with a single account and a balanced posted transaction whose
credit line references a missing account. -/
def cex3Ledger : Ledger :=
  { accounts := [wAcc1], transactions := [cex3Txn] }

/-- The transaction row produced by the C8 witness creation. -/
def wTxnCreated : Txn :=
  { id := 3, company_id := 1, transaction_date := 700002, description := "pair",
    reference := none, is_posted := false, created_by_id := 1,
    lines := [{ account_id := 1, amount := 7, description := some "d", line_order := 0 },
              { account_id := 2, amount := -7, description := none, line_order := 1 }] }

/-- The demo ledger after the C8 witness creation. -/
def wLedgerAfterCreate : Ledger :=
  { accounts := wLedger.accounts, transactions := wLedger.transactions ++ [wTxnCreated] }

/-! ## Order lemmas for the comparators -/

theorem charLtb_trans {a b c : Char} (h1 : charLtb a b = true) (h2 : charLtb b c = true) :
    charLtb a c = true := by
  simp only [charLtb, decide_eq_true_eq] at h1 h2 ⊢
  exact Nat.lt_trans h1 h2

theorem charLtb_asymm {a b : Char} (h : charLtb a b = true) : charLtb b a = false := by
  simp only [charLtb, decide_eq_true_eq, decide_eq_false_iff_not] at h ⊢
  omega

theorem charLtb_toNat_eq {a b : Char} (h1 : charLtb a b = false) (h2 : charLtb b a = false) :
    a.toNat = b.toNat := by
  simp only [charLtb, decide_eq_false_iff_not] at h1 h2
  omega

theorem charLtb_congr_left {a b : Char} (h : a.toNat = b.toNat) (c : Char) :
    charLtb a c = charLtb b c := by
  simp only [charLtb, h]

theorem charLtb_congr_right {a b : Char} (h : a.toNat = b.toNat) (c : Char) :
    charLtb c a = charLtb c b := by
  simp only [charLtb, h]

theorem charLtb_false_of_toNat_eq {a b : Char} (h : a.toNat = b.toNat) :
    charLtb a b = false := by
  simp [charLtb, h]

theorem strLtAux_trans : ∀ (a b c : List Char), strLtAux a b = true → strLtAux b c = true →
    strLtAux a c = true := by
  intro a
  induction a with
  | nil =>
    intro b c h1 h2
    cases b with
    | nil => exact h2
    | cons bh bt =>
      cases c with
      | nil => simp [strLtAux] at h2
      | cons ch ct => simp [strLtAux]
  | cons ah as0 ih =>
    intro b c h1 h2
    cases b with
    | nil => simp [strLtAux] at h1
    | cons bh bt =>
      cases c with
      | nil => simp [strLtAux] at h2
      | cons ch ct =>
        simp only [strLtAux] at h1 h2 ⊢
        by_cases hab : charLtb ah bh = true
        · by_cases hbc : charLtb bh ch = true
          · simp [charLtb_trans hab hbc]
          · rw [if_neg hbc] at h2
            by_cases hcb : charLtb ch bh = true
            · simp [hcb] at h2
            · have hbceq := charLtb_toNat_eq (Bool.eq_false_iff.mpr hbc) (Bool.eq_false_iff.mpr hcb)
              rw [← charLtb_congr_right hbceq ah]
              simp [hab]
        · rw [if_neg hab] at h1
          by_cases hba : charLtb bh ah = true
          · simp [hba] at h1
          · rw [if_neg hba] at h1
            have habeq := charLtb_toNat_eq (Bool.eq_false_iff.mpr hab) (Bool.eq_false_iff.mpr hba)
            by_cases hbc : charLtb bh ch = true
            · rw [charLtb_congr_left habeq ch]
              simp [hbc]
            · rw [if_neg hbc] at h2
              by_cases hcb : charLtb ch bh = true
              · simp [hcb] at h2
              · rw [if_neg hcb] at h2
                have hbceq := charLtb_toNat_eq (Bool.eq_false_iff.mpr hbc) (Bool.eq_false_iff.mpr hcb)
                have hac : ah.toNat = ch.toNat := habeq.trans hbceq
                rw [if_neg (by simp [charLtb_false_of_toNat_eq hac]),
                  if_neg (by simp [charLtb_false_of_toNat_eq hac.symm])]
                exact ih bt ct h1 h2

theorem strLtAux_asymm : ∀ (a b : List Char), strLtAux a b = true → strLtAux b a = false := by
  intro a
  induction a with
  | nil =>
    intro b h
    cases b with
    | nil => simp [strLtAux] at h
    | cons bh bt => simp [strLtAux]
  | cons ah as0 ih =>
    intro b h
    cases b with
    | nil => simp [strLtAux] at h
    | cons bh bt =>
      simp only [strLtAux] at h ⊢
      by_cases hab : charLtb ah bh = true
      · rw [charLtb_asymm hab, if_neg (by simp), if_pos hab]
      · rw [if_neg hab] at h
        by_cases hba : charLtb bh ah = true
        · simp [hba] at h
        · rw [if_neg hba] at h
          rw [if_neg hba, if_neg hab]
          exact ih bt h

theorem codeLt_trans {a b c : String} (h1 : codeLt a b = true) (h2 : codeLt b c = true) :
    codeLt a c = true := strLtAux_trans a.data b.data c.data h1 h2

theorem codeLt_asymm {a b : String} (h : codeLt a b = true) : codeLt b a = false :=
  strLtAux_asymm a.data b.data h

/-! ## Stable-sort lemmas -/

theorem perm_insertSorted (lt : α → α → Bool) (x : α) :
    ∀ l : List α, (insertSorted lt x l).Perm (x :: l) := by
  intro l
  induction l with
  | nil => simp [insertSorted]
  | cons y ys ih =>
    simp only [insertSorted]
    by_cases h : lt x y = true
    · simp [h]
    · simp only [h, if_false]
      exact (ih.cons y).trans (List.Perm.swap x y ys)

theorem perm_sortBy_aux (lt : α → α → Bool) :
    ∀ (l acc : List α), (l.foldl (fun acc x => insertSorted lt x acc) acc).Perm (acc ++ l) := by
  intro l
  induction l with
  | nil => intro acc; simp
  | cons x xs ih =>
    intro acc
    simp only [List.foldl_cons]
    refine (ih (insertSorted lt x acc)).trans ?_
    refine ((perm_insertSorted lt x acc).append_right xs).trans ?_
    exact List.perm_middle.symm

theorem perm_sortBy (lt : α → α → Bool) (l : List α) : (sortBy lt l).Perm l := by
  simpa using perm_sortBy_aux lt l []

theorem mem_sortBy {lt : α → α → Bool} {l : List α} {x : α} :
    x ∈ sortBy lt l ↔ x ∈ l := (perm_sortBy lt l).mem_iff

theorem sorted_insertSorted (lt : α → α → Bool)
    (htr : ∀ a b c, lt a b = true → lt b c = true → lt a c = true)
    (hasym : ∀ a b, lt a b = true → lt b a = false) (x : α) :
    ∀ l, SortedBy lt l → SortedBy lt (insertSorted lt x l) := by
  intro l
  induction l with
  | nil => intro _; simp [insertSorted, SortedBy]
  | cons y ys ih =>
    intro hs
    rw [SortedBy, List.pairwise_cons] at hs
    simp only [insertSorted]
    by_cases h : lt x y = true
    · rw [if_pos h, SortedBy, List.pairwise_cons]
      refine ⟨?_, List.pairwise_cons.mpr hs⟩
      intro z hz
      rcases List.mem_cons.mp hz with rfl | hz'
      · exact hasym x z h
      · by_contra hzx
        have hzx' : lt z x = true := by
          cases hlt : lt z x with
          | false => exact absurd hlt hzx
          | true => rfl
        exact absurd (htr z x y hzx' h) (by simp [hs.1 z hz'])
    · rw [if_neg h, SortedBy, List.pairwise_cons]
      constructor
      · intro z hz
        rcases List.mem_cons.mp ((perm_insertSorted lt x ys).mem_iff.mp hz) with rfl | hz'
        · exact Bool.eq_false_iff.mpr h
        · exact hs.1 z hz'
      · exact ih hs.2

theorem sorted_sortBy_aux (lt : α → α → Bool)
    (htr : ∀ a b c, lt a b = true → lt b c = true → lt a c = true)
    (hasym : ∀ a b, lt a b = true → lt b a = false) :
    ∀ (l acc : List α), SortedBy lt acc →
      SortedBy lt (l.foldl (fun acc x => insertSorted lt x acc) acc) := by
  intro l
  induction l with
  | nil => intro acc h; exact h
  | cons x xs ih =>
    intro acc h
    simp only [List.foldl_cons]
    exact ih _ (sorted_insertSorted lt htr hasym x acc h)

theorem sorted_sortBy (lt : α → α → Bool)
    (htr : ∀ a b c, lt a b = true → lt b c = true → lt a c = true)
    (hasym : ∀ a b, lt a b = true → lt b a = false) (l : List α) :
    SortedBy lt (sortBy lt l) :=
  sorted_sortBy_aux lt htr hasym l [] (by simp [SortedBy])

/-! ## Dictionary lemmas -/

theorem keysList_dictUpdate (k : Nat) (f : AccountBalance → AccountBalance) :
    ∀ d, keysList (dictUpdate k f d) = keysList d := by
  intro d
  induction d with
  | nil => rfl
  | cons kv rest ih =>
    obtain ⟨k', v⟩ := kv
    simp only [dictUpdate]
    by_cases h : (k' == k) = true
    · simp [if_pos h, keysList, eq_of_beq h]
    · simp only [if_neg h, keysList, List.map_cons] at ih ⊢
      rw [ih]

theorem dictContains_iff_mem (k : Nat) :
    ∀ d, dictContains k d = true ↔ k ∈ keysList d := by
  intro d
  induction d with
  | nil => simp [dictContains, keysList]
  | cons kv rest ih =>
    obtain ⟨k', v⟩ := kv
    simp only [dictContains, keysList, List.map_cons, List.mem_cons, Bool.or_eq_true,
      beq_iff_eq]
    rw [keysList] at ih
    rw [ih]
    constructor
    · rintro (h | h)
      · exact Or.inl h.symm
      · exact Or.inr h
    · rintro (h | h)
      · exact Or.inl h.symm
      · exact Or.inr h

theorem dictContains_eq_isSome (k : Nat) :
    ∀ d, dictContains k d = (dictLookup k d).isSome := by
  intro d
  induction d with
  | nil => rfl
  | cons kv rest ih =>
    obtain ⟨k', v⟩ := kv
    simp only [dictContains, dictLookup]
    by_cases h : (k' == k) = true
    · simp [h]
    · simp only [h, Bool.false_or, if_neg h]
      exact ih

theorem dictLookup_dictUpdate_self (k : Nat) (f : AccountBalance → AccountBalance) :
    ∀ d, dictLookup k (dictUpdate k f d) = (dictLookup k d).map f := by
  intro d
  induction d with
  | nil => rfl
  | cons kv rest ih =>
    obtain ⟨k', v⟩ := kv
    simp only [dictUpdate]
    by_cases h : (k' == k) = true
    · simp [dictLookup, h]
    · simp only [if_neg h, dictLookup, if_neg h]
      exact ih

theorem dictLookup_dictUpdate_ne (k k' : Nat) (hne : k' ≠ k)
    (f : AccountBalance → AccountBalance) :
    ∀ d, dictLookup k (dictUpdate k' f d) = dictLookup k d := by
  intro d
  induction d with
  | nil => rfl
  | cons kv rest ih =>
    obtain ⟨k0, v⟩ := kv
    simp only [dictUpdate]
    by_cases h : (k0 == k') = true
    · have hk0 : k0 = k' := eq_of_beq h
      subst hk0
      have hne' : (k0 == k) = false := beq_eq_false_iff_ne.mpr hne
      simp [dictLookup, h, hne']
    · simp only [if_neg h, dictLookup]
      by_cases h2 : (k0 == k) = true
      · simp [h2]
      · simp only [if_neg h2]
        exact ih

theorem dictLookup_mem {k : Nat} {b : AccountBalance} :
    ∀ {d : BalDict}, dictLookup k d = some b → (k, b) ∈ d := by
  intro d
  induction d with
  | nil => intro h; simp [dictLookup] at h
  | cons kv rest ih =>
    obtain ⟨k', v⟩ := kv
    intro h
    simp only [dictLookup] at h
    by_cases hk : (k' == k) = true
    · rw [if_pos hk] at h
      obtain rfl := Option.some_injective _ h
      have : k' = k := eq_of_beq hk
      subst this
      exact List.mem_cons_self _ _
    · rw [if_neg hk] at h
      exact List.mem_cons_of_mem _ (ih h)

theorem dictLookup_eq_none_of_not_contains {k : Nat} {d : BalDict}
    (h : dictContains k d = false) : dictLookup k d = none := by
  have := dictContains_eq_isSome k d
  rw [h] at this
  cases hl : dictLookup k d with
  | none => rfl
  | some b => rw [hl] at this; simp at this

theorem dictLookup_applyLine (k : Nat) (d : BalDict) (l : TransactionLine) :
    dictLookup k (applyLine d l) =
      if l.account_id = k then (dictLookup k d).map (lineAdd l) else dictLookup k d := by
  by_cases hk : l.account_id = k
  · rw [if_pos hk]
    subst hk
    by_cases hc : dictContains l.account_id d = true
    · rw [applyLine, if_pos hc]
      by_cases hpos : 0 < l.amount
      · rw [if_pos hpos, dictLookup_dictUpdate_self]
        cases dictLookup l.account_id d with
        | none => rfl
        | some b => simp [lineAdd, hpos]
      · rw [if_neg hpos, dictLookup_dictUpdate_self]
        cases dictLookup l.account_id d with
        | none => rfl
        | some b => simp [lineAdd, hpos]
    · rw [applyLine, if_neg hc]
      rw [dictLookup_eq_none_of_not_contains (Bool.eq_false_iff.mpr hc)]
      rfl
  · rw [if_neg hk]
    rw [applyLine]
    by_cases hc : dictContains l.account_id d = true
    · rw [if_pos hc]
      by_cases hpos : 0 < l.amount
      · rw [if_pos hpos, dictLookup_dictUpdate_ne k l.account_id hk]
      · rw [if_neg hpos, dictLookup_dictUpdate_ne k l.account_id hk]
    · rw [if_neg hc]

theorem keysList_applyLine (d : BalDict) (l : TransactionLine) :
    keysList (applyLine d l) = keysList d := by
  rw [applyLine]
  by_cases hc : dictContains l.account_id d = true
  · rw [if_pos hc]
    by_cases hpos : 0 < l.amount
    · rw [if_pos hpos, keysList_dictUpdate]
    · rw [if_neg hpos, keysList_dictUpdate]
  · rw [if_neg hc]

theorem keysList_foldl_applyLine (ls : List TransactionLine) :
    ∀ d : BalDict, keysList (ls.foldl applyLine d) = keysList d := by
  induction ls with
  | nil => intro d; rfl
  | cons l rest ih =>
    intro d
    rw [List.foldl_cons, ih, keysList_applyLine]

theorem keysList_applyTxn (d : BalDict) (t : Txn) :
    keysList (applyTxn d t) = keysList d := keysList_foldl_applyLine t.lines d

theorem keysList_foldl_applyTxn (ts : List Txn) :
    ∀ d : BalDict, keysList (ts.foldl applyTxn d) = keysList d := by
  induction ts with
  | nil => intro d; rfl
  | cons t rest ih =>
    intro d
    rw [List.foldl_cons, ih, keysList_applyTxn]

theorem keysList_finalize (d : BalDict) :
    keysList (finalizeBalances d) = keysList d := by
  induction d with
  | nil => rfl
  | cons kv rest ih =>
    simp only [finalizeBalances, keysList, List.map_cons] at ih ⊢
    rw [ih]

theorem dictLookup_finalize (k : Nat) :
    ∀ d : BalDict, dictLookup k (finalizeBalances d) =
      (dictLookup k d).map
        (fun b => { b with balance := b.debit_total - b.credit_total }) := by
  intro d
  induction d with
  | nil => rfl
  | cons kv rest ih =>
    obtain ⟨k', v⟩ := kv
    simp only [finalizeBalances, List.map_cons, dictLookup]
    by_cases h : (k' == k) = true
    · simp [h]
    · simp only [if_neg h]
      simpa [finalizeBalances] using ih

theorem foldl_applyLine_lookup (k : Nat) :
    ∀ (ls : List TransactionLine) (d : BalDict),
      dictLookup k (ls.foldl applyLine d) =
        (dictLookup k d).map (fun b =>
          { b with debit_total := b.debit_total + linesDebit k ls,
                   credit_total := b.credit_total + linesCredit k ls }) := by
  intro ls
  induction ls with
  | nil =>
    intro d
    simp only [List.foldl_nil, linesDebit, linesCredit, List.filter_nil, List.map_nil,
      List.sum_nil, add_zero]
    cases dictLookup k d with
    | none => rfl
    | some b => rfl
  | cons l rest ih =>
    intro d
    rw [List.foldl_cons, ih, dictLookup_applyLine]
    by_cases hk : l.account_id = k
    · rw [if_pos hk, Option.map_map]
      cases dictLookup k d with
      | none => rfl
      | some b =>
        simp only [Option.map_some', Function.comp_apply]
        by_cases hpos : 0 < l.amount
        · have hcond : (l.account_id == k && decide (0 < l.amount)) = true := by
            simp [hk, hpos]
          have hcond2 : (l.account_id == k && !decide (0 < l.amount)) = false := by
            simp [hk, hpos]
          simp only [lineAdd, if_pos hpos, linesDebit, linesCredit, List.filter_cons,
            hcond, hcond2, if_true, Bool.false_eq_true, if_false, List.map_cons,
            List.sum_cons]
          congr 1 <;> ring_nf
        · have hcond : (l.account_id == k && decide (0 < l.amount)) = false := by
            simp [hk, hpos]
          have hcond2 : (l.account_id == k && !decide (0 < l.amount)) = true := by
            simp [hk, hpos]
          simp only [lineAdd, if_neg hpos, linesDebit, linesCredit, List.filter_cons,
            hcond, hcond2, if_true, Bool.false_eq_true, if_false, List.map_cons,
            List.sum_cons]
          congr 1 <;> ring_nf
    · rw [if_neg hk]
      have hcond : (l.account_id == k && decide (0 < l.amount)) = false := by
        simp [hk]
      have hcond2 : (l.account_id == k && !decide (0 < l.amount)) = false := by
        simp [hk]
      simp only [linesDebit, linesCredit, List.filter_cons, hcond, hcond2,
        Bool.false_eq_true, if_false]

theorem foldl_applyTxn_lookup (k : Nat) :
    ∀ (ts : List Txn) (d : BalDict),
      dictLookup k (ts.foldl applyTxn d) =
        (dictLookup k d).map (fun b =>
          { b with debit_total := b.debit_total + txnsDebit k ts,
                   credit_total := b.credit_total + txnsCredit k ts }) := by
  intro ts
  induction ts with
  | nil =>
    intro d
    simp only [List.foldl_nil, txnsDebit, txnsCredit, List.map_nil, List.sum_nil, add_zero]
    cases dictLookup k d with
    | none => rfl
    | some b => rfl
  | cons t rest ih =>
    intro d
    rw [List.foldl_cons, ih]
    rw [show applyTxn d t = t.lines.foldl applyLine d from rfl]
    rw [foldl_applyLine_lookup, Option.map_map]
    cases dictLookup k d with
    | none => rfl
    | some b =>
      simp only [Option.map_some', Function.comp_apply, txnsDebit, txnsCredit,
        List.map_cons, List.sum_cons]
      congr 1 <;> ring_nf

theorem mem_dictInsert_values (Z : AccountBalance → Prop) {k : Nat} {v : AccountBalance}
    (hv : Z v) : ∀ {d : BalDict}, (∀ kv ∈ d, Z kv.2) →
      ∀ kv ∈ dictInsert k v d, Z kv.2 := by
  intro d
  induction d with
  | nil =>
    intro _ kv hkv
    simp only [dictInsert, List.mem_singleton] at hkv
    subst hkv; exact hv
  | cons kv0 rest ih =>
    intro hall kv hkv
    obtain ⟨k0, v0⟩ := kv0
    simp only [dictInsert] at hkv
    by_cases h : (k0 == k) = true
    · rw [if_pos h] at hkv
      rcases List.mem_cons.mp hkv with rfl | hm
      · exact hv
      · exact hall _ (List.mem_cons_of_mem _ hm)
    · rw [if_neg h] at hkv
      rcases List.mem_cons.mp hkv with rfl | hm
      · exact hall _ (List.mem_cons_self _ _)
      · exact ih (fun kv2 h2 => hall _ (List.mem_cons_of_mem _ h2)) kv hm

theorem initBalances_values_zero (accounts : List Account) :
    ∀ kv ∈ initBalances accounts, kv.2.debit_total = 0 ∧ kv.2.credit_total = 0 ∧
      kv.2.balance = 0 := by
  rw [initBalances]
  have main : ∀ (l : List Account) (d : BalDict),
      (∀ kv ∈ d, kv.2.debit_total = 0 ∧ kv.2.credit_total = 0 ∧ kv.2.balance = 0) →
      ∀ kv ∈ l.foldl (fun d a =>
        dictInsert a.id { account := a, debit_total := 0, credit_total := 0, balance := 0 } d) d,
        kv.2.debit_total = 0 ∧ kv.2.credit_total = 0 ∧ kv.2.balance = 0 := by
    intro l
    induction l with
    | nil => intro d h; exact h
    | cons a rest ih =>
      intro d h
      rw [List.foldl_cons]
      exact ih _ (mem_dictInsert_values
        (fun b => b.debit_total = 0 ∧ b.credit_total = 0 ∧ b.balance = 0) ⟨rfl, rfl, rfl⟩ h)
  exact main accounts [] (by intro kv h; simp at h)

theorem dictLookup_initBalances_zero {accounts : List Account} {k : Nat} {b : AccountBalance}
    (h : dictLookup k (initBalances accounts) = some b) :
    b.debit_total = 0 ∧ b.credit_total = 0 ∧ b.balance = 0 :=
  initBalances_values_zero accounts (k, b) (dictLookup_mem h)

theorem keysList_dictInsert (k : Nat) (v : AccountBalance) :
    ∀ d, keysList (dictInsert k v d) =
      if dictContains k d then keysList d else keysList d ++ [k] := by
  intro d
  induction d with
  | nil => simp [dictInsert, dictContains, keysList]
  | cons kv rest ih =>
    obtain ⟨k0, v0⟩ := kv
    by_cases h : (k0 == k) = true
    · have hc : dictContains k ((k0, v0) :: rest) = true := by
        rw [dictContains]; simp [h]
      rw [dictInsert, if_pos h, if_pos hc]
      simp [keysList, eq_of_beq h]
    · have h' : (k0 == k) = false := Bool.eq_false_iff.mpr h
      have hcc : dictContains k ((k0, v0) :: rest) = dictContains k rest := by
        rw [dictContains, h', Bool.false_or]
      rw [dictInsert, if_neg h, hcc]
      simp only [keysList, List.map_cons] at ih ⊢
      rw [ih]
      by_cases hc : dictContains k rest = true
      · rw [if_pos hc, if_pos hc]
      · rw [if_neg hc, if_neg hc]
        rfl

theorem keysList_initBalances_nodup (accounts : List Account) :
    (keysList (initBalances accounts)).Nodup := by
  rw [initBalances]
  have main : ∀ (l : List Account) (d : BalDict), (keysList d).Nodup →
      (keysList (l.foldl (fun d a =>
        dictInsert a.id { account := a, debit_total := 0, credit_total := 0, balance := 0 } d)
        d)).Nodup := by
    intro l
    induction l with
    | nil => intro d h; exact h
    | cons a rest ih =>
      intro d h
      rw [List.foldl_cons]
      refine ih _ ?_
      rw [keysList_dictInsert]
      by_cases hc : dictContains a.id d = true
      · rwa [if_pos hc]
      · rw [if_neg hc, List.nodup_append]
        refine ⟨h, List.nodup_singleton _, ?_⟩
        intro x hx hx2
        simp only [List.mem_singleton] at hx2
        subst hx2
        exact hc ((dictContains_iff_mem _ d).mpr hx)
  exact main accounts [] (by simp [keysList])

theorem mem_keysList_initBalances (k : Nat) (accounts : List Account) :
    k ∈ keysList (initBalances accounts) ↔ k ∈ accounts.map (fun a => a.id) := by
  rw [initBalances]
  have main : ∀ (l : List Account) (d : BalDict),
      (k ∈ keysList (l.foldl (fun d a =>
        dictInsert a.id { account := a, debit_total := 0, credit_total := 0, balance := 0 } d)
        d) ↔ k ∈ keysList d ∨ k ∈ l.map (fun a => a.id)) := by
    intro l
    induction l with
    | nil => intro d; simp
    | cons a rest ih =>
      intro d
      rw [List.foldl_cons, ih]
      rw [keysList_dictInsert]
      by_cases hc : dictContains a.id d = true
      · rw [if_pos hc]
        simp only [List.map_cons, List.mem_cons]
        constructor
        · rintro (h | h)
          · exact Or.inl h
          · exact Or.inr (Or.inr h)
        · rintro (h | rfl | h)
          · exact Or.inl h
          · exact Or.inl ((dictContains_iff_mem _ _).mp hc)
          · exact Or.inr h
      · rw [if_neg (by simp [hc])]
        simp only [List.mem_append, List.mem_singleton, List.map_cons, List.mem_cons]
        tauto
  rw [main accounts []]
  simp [keysList]

theorem dictLookup_balanceFold (accounts : List Account) (ts : List Txn) (k : Nat) :
    dictLookup k (balanceFold accounts ts) =
      (dictLookup k (initBalances accounts)).map (fun b =>
        { account := b.account, debit_total := b.debit_total + txnsDebit k ts,
          credit_total := b.credit_total + txnsCredit k ts,
          balance := (b.debit_total + txnsDebit k ts) - (b.credit_total + txnsCredit k ts) }) := by
  rw [balanceFold, dictLookup_finalize, foldl_applyTxn_lookup, Option.map_map]
  cases dictLookup k (initBalances accounts) with
  | none => rfl
  | some b => rfl

theorem keysList_balanceFold (accounts : List Account) (ts : List Txn) :
    keysList (balanceFold accounts ts) = keysList (initBalances accounts) := by
  rw [balanceFold, keysList_finalize, keysList_foldl_applyTxn]

theorem dict_ext : ∀ (d₁ d₂ : BalDict), keysList d₁ = keysList d₂ →
    (keysList d₁).Nodup → (∀ k, dictLookup k d₁ = dictLookup k d₂) → d₁ = d₂ := by
  intro d₁
  induction d₁ with
  | nil =>
    intro d₂ hk _ _
    cases d₂ with
    | nil => rfl
    | cons kv rest => simp [keysList] at hk
  | cons kv rest ih =>
    intro d₂ hk hnd hl
    obtain ⟨k, v⟩ := kv
    cases d₂ with
    | nil => simp [keysList] at hk
    | cons kv2 rest2 =>
      obtain ⟨k2, v2⟩ := kv2
      simp only [keysList, List.map_cons, List.cons.injEq] at hk
      obtain ⟨rfl, hkrest⟩ := hk
      have hv : v = v2 := by
        have := hl k
        simp [dictLookup] at this
        exact this
      subst hv
      simp only [keysList, List.map_cons, List.nodup_cons] at hnd
      refine congrArg _ (ih rest2 hkrest hnd.2 ?_)
      intro k0
      by_cases hk0 : (k == k0) = true
      · have : k = k0 := eq_of_beq hk0
        subst this
        have h1 : dictLookup k rest = none := by
          cases hc : dictLookup k rest with
          | none => rfl
          | some b =>
            exact absurd (List.mem_map_of_mem Prod.fst (dictLookup_mem hc)) hnd.1
        have h2 : dictLookup k rest2 = none := by
          cases hc : dictLookup k rest2 with
          | none => rfl
          | some b =>
            have hm : k ∈ List.map Prod.fst rest2 :=
              List.mem_map_of_mem Prod.fst (dictLookup_mem hc)
            rw [← hkrest] at hm
            exact absurd hm hnd.1
        rw [h1, h2]
      · have := hl k0
        simp only [dictLookup, if_neg hk0] at this
        exact this

/-! ## Sum lemmas for the trial-balance argument -/

theorem sum_map_sub {β : Type _} (f g : β → Int) :
    ∀ l : List β, (l.map (fun b => f b - g b)).sum = (l.map f).sum - (l.map g).sum := by
  intro l
  induction l with
  | nil => simp
  | cons x xs ih =>
    simp only [List.map_cons, List.sum_cons, ih]
    ring

theorem sum_map_filter_of_zero {β : Type _} (p : β → Bool) (f : β → Int) :
    ∀ l : List β, (∀ x ∈ l, p x = false → f x = 0) →
      ((l.filter p).map f).sum = (l.map f).sum := by
  intro l
  induction l with
  | nil => intro _; simp
  | cons x xs ih =>
    intro h
    rw [List.filter_cons]
    by_cases hp : p x = true
    · simp only [hp, if_true, List.map_cons, List.sum_cons]
      rw [ih (fun y hy => h y (List.mem_cons_of_mem _ hy))]
    · have hp' : p x = false := Bool.eq_false_iff.mpr hp
      simp only [hp', Bool.false_eq_true, if_false, List.map_cons, List.sum_cons]
      rw [ih (fun y hy => h y (List.mem_cons_of_mem _ hy)), h x (List.mem_cons_self _ _) hp']
      ring

theorem dictDC_dictUpdate (k : Nat) (f : AccountBalance → AccountBalance) (c : Int)
    (hf : ∀ b, (f b).debit_total - (f b).credit_total = (b.debit_total - b.credit_total) + c) :
    ∀ d, dictDC (dictUpdate k f d) = dictDC d + (if dictContains k d then c else 0) := by
  intro d
  induction d with
  | nil => simp [dictDC, dictUpdate, dictContains]
  | cons kv rest ih =>
    obtain ⟨k0, v⟩ := kv
    rw [dictUpdate]
    by_cases h : (k0 == k) = true
    · rw [if_pos h]
      have hc : dictContains k ((k0, v) :: rest) = true := by
        rw [dictContains]; simp [h]
      rw [hc]
      simp only [dictDC, List.map_cons, List.sum_cons, if_true]
      rw [hf v]
      ring
    · rw [if_neg h]
      have h' : (k0 == k) = false := Bool.eq_false_iff.mpr h
      have hcc : dictContains k ((k0, v) :: rest) = dictContains k rest := by
        rw [dictContains, h', Bool.false_or]
      rw [hcc]
      simp only [dictDC, List.map_cons, List.sum_cons] at ih ⊢
      rw [ih]
      ring

theorem dictContains_applyLine (k : Nat) (d : BalDict) (l : TransactionLine) :
    dictContains k (applyLine d l) = dictContains k d := by
  have h1 := dictContains_iff_mem k (applyLine d l)
  have h2 := dictContains_iff_mem k d
  rw [keysList_applyLine] at h1
  cases hc : dictContains k d with
  | true => exact (h1.mpr (h2.mp hc))
  | false =>
    cases hc2 : dictContains k (applyLine d l) with
    | false => rfl
    | true => exact absurd (h2.mpr (h1.mp hc2)) (by simp [hc])

theorem dictDC_applyLine (d : BalDict) (l : TransactionLine) :
    dictDC (applyLine d l) =
      dictDC d + (if dictContains l.account_id d then l.amount else 0) := by
  rw [applyLine]
  by_cases hc : dictContains l.account_id d = true
  · rw [if_pos hc, hc, if_pos rfl]
    by_cases hpos : 0 < l.amount
    · rw [if_pos hpos]
      rw [dictDC_dictUpdate l.account_id _ l.amount (fun b => by simp; ring), hc, if_pos rfl]
    · rw [if_neg hpos]
      rw [dictDC_dictUpdate l.account_id _ l.amount
        (fun b => by
          simp only []
          rw [abs_of_nonpos (by omega)]
          ring), hc, if_pos rfl]
  · rw [if_neg hc]
    have : dictContains l.account_id d = false := Bool.eq_false_iff.mpr hc
    rw [this]
    simp

theorem dictDC_foldl_applyLine (ls : List TransactionLine) :
    ∀ d : BalDict, (∀ l ∈ ls, dictContains l.account_id d = true) →
      dictDC (ls.foldl applyLine d) = dictDC d + (ls.map (fun l => l.amount)).sum := by
  induction ls with
  | nil => intro d _; simp
  | cons l rest ih =>
    intro d h
    rw [List.foldl_cons, ih _ ?_, dictDC_applyLine, h l (List.mem_cons_self _ _), if_pos rfl]
    · simp only [List.map_cons, List.sum_cons]
      ring
    · intro l2 h2
      rw [dictContains_applyLine]
      exact h l2 (List.mem_cons_of_mem _ h2)

theorem dictContains_applyTxn (k : Nat) (d : BalDict) (t : Txn) :
    dictContains k (applyTxn d t) = dictContains k d := by
  have h1 := dictContains_iff_mem k (applyTxn d t)
  have h2 := dictContains_iff_mem k d
  rw [keysList_applyTxn] at h1
  cases hc : dictContains k d with
  | true => exact (h1.mpr (h2.mp hc))
  | false =>
    cases hc2 : dictContains k (applyTxn d t) with
    | false => rfl
    | true => exact absurd (h2.mpr (h1.mp hc2)) (by simp [hc])

theorem dictDC_foldl_applyTxn (ts : List Txn) :
    ∀ d : BalDict,
      (∀ t ∈ ts, (∀ l ∈ t.lines, dictContains l.account_id d = true) ∧
        (t.lines.map (fun l => l.amount)).sum = 0) →
      dictDC (ts.foldl applyTxn d) = dictDC d := by
  induction ts with
  | nil => intro d _; rfl
  | cons t rest ih =>
    intro d h
    rw [List.foldl_cons, ih _ ?_]
    · rw [show applyTxn d t = t.lines.foldl applyLine d from rfl,
        dictDC_foldl_applyLine t.lines d (h t (List.mem_cons_self _ _)).1,
        (h t (List.mem_cons_self _ _)).2, add_zero]
    · intro t2 h2
      refine ⟨?_, (h t2 (List.mem_cons_of_mem _ h2)).2⟩
      intro l hl
      rw [dictContains_applyTxn]
      exact (h t2 (List.mem_cons_of_mem _ h2)).1 l hl

theorem dictDC_of_values_zero :
    ∀ d : BalDict, (∀ kv ∈ d, kv.2.debit_total = 0 ∧ kv.2.credit_total = 0 ∧ kv.2.balance = 0) →
      dictDC d = 0 := by
  intro d
  induction d with
  | nil => intro _; rfl
  | cons kv rest ih =>
    intro h
    simp only [dictDC, List.map_cons, List.sum_cons]
    have h0 := h kv (List.mem_cons_self _ _)
    rw [h0.1, h0.2.1]
    simp only [dictDC] at ih
    rw [ih (fun kv2 h2 => h kv2 (List.mem_cons_of_mem _ h2))]
    ring

theorem dictDC_initBalances (accounts : List Account) :
    dictDC (initBalances accounts) = 0 :=
  dictDC_of_values_zero _ (initBalances_values_zero accounts)

theorem dictDC_finalize (d : BalDict) : dictDC (finalizeBalances d) = dictDC d := by
  induction d with
  | nil => rfl
  | cons kv rest ih =>
    simp only [dictDC, finalizeBalances, List.map_cons, List.sum_cons] at ih ⊢
    rw [ih]

theorem finalize_values_balance (d : BalDict) :
    ∀ b ∈ (finalizeBalances d).map Prod.snd,
      b.balance = b.debit_total - b.credit_total := by
  intro b hb
  rw [finalizeBalances, List.map_map] at hb
  obtain ⟨kv, _, rfl⟩ := List.mem_map.mp hb
  rfl

/-! ## Validation lemmas -/

theorem validate_lines_insufficient {ls : List TransactionLine} (h : ls.length < 2) :
    validate_transaction_lines ls = .error .insufficientLines := by
  rw [validate_transaction_lines, if_pos h]

theorem validate_lines_notBalanced {ls : List TransactionLine} (h1 : ¬ ls.length < 2)
    (h2 : (ls.map (fun l => l.amount)).sum ≠ 0) :
    validate_transaction_lines ls = .error (.notBalanced ((ls.map (fun l => l.amount)).sum)) := by
  rw [validate_transaction_lines, if_neg h1]
  simp only [if_pos h2]

theorem validate_lines_ok_iff (ls : List TransactionLine) :
    validate_transaction_lines ls = .ok () ↔
      2 ≤ ls.length ∧ (ls.map (fun l => l.amount)).sum = 0 := by
  rw [validate_transaction_lines]
  by_cases h1 : ls.length < 2
  · rw [if_pos h1]
    simp
    omega
  · rw [if_neg h1]
    by_cases h2 : (ls.map (fun l => l.amount)).sum ≠ 0
    · simp only [if_pos h2]
      simp
      omega
    · simp only [if_neg h2]
      simp only [ne_eq, not_not] at h2
      simp [h2]
      omega

theorem validate_accounts_cons_none {s : Ledger} {cid : Nat} {l : TransactionLine}
    {rest : List TransactionLine}
    (hl : account_get_by_id_for_tenant s l.account_id cid = none) :
    validate_accounts_exist s cid (l :: rest) = .error (.notFound "Account" l.account_id) := by
  rw [validate_accounts_exist, hl]

theorem validate_accounts_cons_active {s : Ledger} {cid : Nat} {l : TransactionLine}
    {rest : List TransactionLine} {a : Account}
    (hl : account_get_by_id_for_tenant s l.account_id cid = some a)
    (hact : a.is_active = true) :
    validate_accounts_exist s cid (l :: rest) = validate_accounts_exist s cid rest := by
  rw [validate_accounts_exist, hl]
  exact if_pos hact

theorem validate_accounts_cons_inactive {s : Ledger} {cid : Nat} {l : TransactionLine}
    {rest : List TransactionLine} {a : Account}
    (hl : account_get_by_id_for_tenant s l.account_id cid = some a)
    (hact : a.is_active = false) :
    validate_accounts_exist s cid (l :: rest) = .error (.validationError (inactiveMsg a)) := by
  rw [validate_accounts_exist, hl]
  exact if_neg (by simp [hact])

theorem validate_accounts_ok_iff (s : Ledger) (cid : Nat) :
    ∀ ls : List TransactionLine,
      validate_accounts_exist s cid ls = .ok () ↔ ∀ l ∈ ls, GoodLine s cid l := by
  intro ls
  induction ls with
  | nil => simp [validate_accounts_exist]
  | cons l rest ih =>
    cases hl : account_get_by_id_for_tenant s l.account_id cid with
    | none =>
      rw [validate_accounts_cons_none hl]
      constructor
      · intro h; cases h
      · intro h
        obtain ⟨a, ha, _⟩ := h l (List.mem_cons_self _ _)
        rw [hl] at ha
        cases ha
    | some a =>
      by_cases hact : a.is_active = true
      · rw [validate_accounts_cons_active hl hact, ih]
        constructor
        · intro h l2 h2
          rcases List.mem_cons.mp h2 with rfl | hm
          · exact ⟨a, hl, hact⟩
          · exact h l2 hm
        · intro h l2 h2
          exact h l2 (List.mem_cons_of_mem _ h2)
      · rw [validate_accounts_cons_inactive hl (Bool.eq_false_iff.mpr hact)]
        constructor
        · intro h; cases h
        · intro h
          obtain ⟨a2, ha2, hact2⟩ := h l (List.mem_cons_self _ _)
          rw [hl] at ha2
          obtain rfl := Option.some_injective _ ha2
          exact absurd hact2 hact

theorem validate_accounts_err_notFound (s : Ledger) (cid : Nat) :
    ∀ (pre : List TransactionLine) (l : TransactionLine) (rest : List TransactionLine),
      (∀ l' ∈ pre, GoodLine s cid l') →
      account_get_by_id_for_tenant s l.account_id cid = none →
      validate_accounts_exist s cid (pre ++ l :: rest) =
        .error (.notFound "Account" l.account_id) := by
  intro pre
  induction pre with
  | nil =>
    intro l rest _ hl
    rw [List.nil_append, validate_accounts_cons_none hl]
  | cons p ps ih =>
    intro l rest hpre hl
    obtain ⟨a, ha, hact⟩ := hpre p (List.mem_cons_self _ _)
    rw [List.cons_append, validate_accounts_cons_active ha hact]
    exact ih l rest (fun l' h' => hpre l' (List.mem_cons_of_mem _ h')) hl

theorem validate_accounts_err_inactive (s : Ledger) (cid : Nat) :
    ∀ (pre : List TransactionLine) (l : TransactionLine) (rest : List TransactionLine)
      (a : Account),
      (∀ l' ∈ pre, GoodLine s cid l') →
      account_get_by_id_for_tenant s l.account_id cid = some a → a.is_active = false →
      validate_accounts_exist s cid (pre ++ l :: rest) =
        .error (.validationError (inactiveMsg a)) := by
  intro pre
  induction pre with
  | nil =>
    intro l rest a _ hl hact
    rw [List.nil_append, validate_accounts_cons_inactive hl hact]
  | cons p ps ih =>
    intro l rest a hpre hl hact
    obtain ⟨a2, ha2, hact2⟩ := hpre p (List.mem_cons_self _ _)
    rw [List.cons_append, validate_accounts_cons_active ha2 hact2]
    exact ih l rest a (fun l' h' => hpre l' (List.mem_cons_of_mem _ h')) hl hact

theorem map_amount_toTxnLine (inputs : List LineInput) :
    ((inputs.map toTxnLine).map (fun l => l.amount)) = inputs.map (fun li => li.amount) := by
  rw [List.map_map]
  rfl

theorem create_err_lines {s : Ledger} {cid uid newId : Nat} {tdate : Int} {descr : String}
    {inputs : List LineInput} {reference : Option String} {posted : Bool} {e : AppError}
    (hv : validate_transaction_lines (inputs.map toTxnLine) = .error e) :
    create_transaction s cid uid tdate descr inputs reference posted newId = .error e := by
  simp only [create_transaction, hv]

theorem create_err_accounts {s : Ledger} {cid uid newId : Nat} {tdate : Int} {descr : String}
    {inputs : List LineInput} {reference : Option String} {posted : Bool} {e : AppError}
    (hv : validate_transaction_lines (inputs.map toTxnLine) = .ok ())
    (ha : validate_accounts_exist s cid (inputs.map toTxnLine) = .error e) :
    create_transaction s cid uid tdate descr inputs reference posted newId = .error e := by
  simp only [create_transaction, hv, ha]

theorem create_ok_eq {s : Ledger} {cid uid newId : Nat} {tdate : Int} {descr : String}
    {inputs : List LineInput} {reference : Option String} {posted : Bool}
    (hv : validate_transaction_lines (inputs.map toTxnLine) = .ok ())
    (ha : validate_accounts_exist s cid (inputs.map toTxnLine) = .ok ()) :
    create_transaction s cid uid tdate descr inputs reference posted newId =
      .ok (repo_create_transaction s
        { id := 0, company_id := cid, transaction_date := tdate, description := descr,
          reference := reference, is_posted := posted, created_by_id := uid,
          lines := inputs.map toTxnLine } newId) := by
  simp only [create_transaction, hv, ha]

theorem update_some_err_lines {s : Ledger} {cid tid : Nat} {odate : Option Int}
    {odescr oref : Option String} {inputs : List LineInput} {t0 : Txn} {e : AppError}
    (hfind : get_with_lines s tid cid = some t0) (hdraft : t0.is_posted = false)
    (hv : validate_transaction_lines (inputs.map toTxnLine) = .error e) :
    update_transaction s cid tid odate odescr oref (some inputs) = .error e := by
  simp only [update_transaction, hfind, hdraft, Bool.false_eq_true, if_false, hv]

theorem update_some_err_accounts {s : Ledger} {cid tid : Nat} {odate : Option Int}
    {odescr oref : Option String} {inputs : List LineInput} {t0 : Txn} {e : AppError}
    (hfind : get_with_lines s tid cid = some t0) (hdraft : t0.is_posted = false)
    (hv : validate_transaction_lines (inputs.map toTxnLine) = .ok ())
    (ha : validate_accounts_exist s cid (inputs.map toTxnLine) = .error e) :
    update_transaction s cid tid odate odescr oref (some inputs) = .error e := by
  simp only [update_transaction, hfind, hdraft, Bool.false_eq_true, if_false, hv, ha]

theorem find?_append_of_none {α : Type _} {p : α → Bool} :
    ∀ {l₁ : List α} (l₂ : List α), (∀ x ∈ l₁, p x = false) →
      (l₁ ++ l₂).find? p = l₂.find? p := by
  intro l₁
  induction l₁ with
  | nil => intro l₂ _; rfl
  | cons x xs ih =>
    intro l₂ h
    rw [List.cons_append, List.find?_cons]
    rw [h x (List.mem_cons_self _ _)]
    exact ih l₂ (fun y hy => h y (List.mem_cons_of_mem _ hy))

theorem resequence_enumFrom_map {β : Type _} (f : TransactionLine → β)
    (hf : ∀ l n, f { l with line_order := n } = f l) :
    ∀ (ls : List TransactionLine) (n : Nat),
      ((List.enumFrom n ls).map (fun p => { p.2 with line_order := p.1 })).map f = ls.map f := by
  intro ls
  induction ls with
  | nil => intro n; rfl
  | cons l rest ih =>
    intro n
    rw [List.enumFrom_cons, List.map_cons, List.map_cons, List.map_cons, hf, ih]

theorem resequence_map_account (ls : List TransactionLine) :
    (resequence ls).map (fun l => l.account_id) = ls.map (fun l => l.account_id) :=
  resequence_enumFrom_map (fun l => l.account_id) (fun _ _ => rfl) ls 0

theorem resequence_map_amount (ls : List TransactionLine) :
    (resequence ls).map (fun l => l.amount) = ls.map (fun l => l.amount) :=
  resequence_enumFrom_map (fun l => l.amount) (fun _ _ => rfl) ls 0

theorem resequence_map_description (ls : List TransactionLine) :
    (resequence ls).map (fun l => l.description) = ls.map (fun l => l.description) :=
  resequence_enumFrom_map (fun l => l.description) (fun _ _ => rfl) ls 0

theorem resequence_map_order (ls : List TransactionLine) :
    (resequence ls).map (fun l => l.line_order) = List.range ls.length := by
  rw [resequence, List.range_eq_range']
  have : ∀ (l2 : List TransactionLine) (n : Nat),
      ((List.enumFrom n l2).map (fun p => { p.2 with line_order := p.1 })).map
        (fun l => l.line_order) = List.range' n l2.length := by
    intro l2
    induction l2 with
    | nil => intro n; rfl
    | cons l rest ih =>
      intro n
      rw [List.enumFrom_cons, List.map_cons, List.map_cons, List.length_cons, List.range'_succ,
        ih]
  exact this ls 0

theorem repo_create_snd_fields (s : Ledger) (e : Txn) (newId : Nat) :
    (repo_create_transaction s e newId).2 =
      { e with id := newId, lines := resequence e.lines } := rfl

theorem repo_create_fetch (s : Ledger) (e : Txn) (newId cid : Nat)
    (hfresh : ∀ t0 ∈ s.transactions, t0.id ≠ newId) (hcid : e.company_id = cid) :
    get_with_lines (repo_create_transaction s e newId).1 newId cid =
      some (repo_create_transaction s e newId).2 := by
  simp only [repo_create_transaction, get_with_lines]
  rw [find?_append_of_none _ (fun x hx => by simp [hfresh x hx])]
  simp [List.find?_cons, hcid]


/-! ## Pipeline permutation and aggregate lemmas -/

theorem pipeline_perm (s : Ledger) (cid : Nat) (sd ed : Int) :
    ((get_by_date_range s cid sd ed).filter (fun t => t.is_posted)).Perm
      (s.transactions.filter (postedInRange cid sd ed)) := by
  rw [get_by_date_range]
  refine (List.Perm.filter (fun t => t.is_posted) (perm_sortBy txnDateLt _)).trans ?_
  have heq : (s.transactions.filter (fun t =>
      t.company_id == cid && decide (sd ≤ t.transaction_date)
        && decide (t.transaction_date ≤ ed))).filter (fun t => t.is_posted) =
      s.transactions.filter (postedInRange cid sd ed) := by
    rw [List.filter_filter]
    exact List.filter_congr (fun t _ => by rw [postedInRange, Bool.and_comm])
  rw [heq]

theorem txnsDebit_perm (k : Nat) {ts1 ts2 : List Txn} (h : ts1.Perm ts2) :
    txnsDebit k ts1 = txnsDebit k ts2 := (h.map _).sum_eq

theorem txnsCredit_perm (k : Nat) {ts1 ts2 : List Txn} (h : ts1.Perm ts2) :
    txnsCredit k ts1 = txnsCredit k ts2 := (h.map _).sum_eq

theorem linesCredit_eq_neg (k : Nat) :
    ∀ ls : List TransactionLine, linesCredit k ls = linesCreditNeg k ls := by
  intro ls
  induction ls with
  | nil => rfl
  | cons l rest ih =>
    rw [linesCredit, linesCreditNeg, List.filter_cons, List.filter_cons]
    rw [linesCredit, linesCreditNeg] at ih
    by_cases hk : (l.account_id == k) = true
    · by_cases hpos : (0 : Int) < l.amount
      · rw [if_neg (by simp [hk, hpos]), if_neg (by simp [hk]; omega)]
        exact ih
      · by_cases hneg : l.amount < 0
        · rw [if_pos (by simp [hk, hpos, hneg]), if_pos (by simp [hk, hneg])]
          simp only [List.map_cons, List.sum_cons]
          rw [ih]
        · have hz : l.amount = 0 := by omega
          rw [if_pos (by simp [hk, hpos]), if_neg (by simp [hneg])]
          simp only [List.map_cons, List.sum_cons]
          rw [ih, hz]
          simp
    · rw [if_neg (by simp [hk]), if_neg (by simp [hk])]
      exact ih

theorem txnsCredit_eq_neg (k : Nat) (ts : List Txn) :
    txnsCredit k ts = txnsCreditNeg k ts := by
  rw [txnsCredit, txnsCreditNeg]
  congr 1
  exact List.map_congr_left (fun t _ => linesCredit_eq_neg k t.lines)

/-- The value the as-of calculator stores at key `k`: the zero-initialised
entry (when `k` is in scope) charged with the plain filtered sums of the
company's posted transactions between 1900-01-01 and the cutoff. -/
theorem calc_lookup (s : Ledger) (cid : Nat) (asof : Int)
    (types : Option (List AccountType)) (k : Nat) :
    dictLookup k (calculate_account_balances s cid asof types) =
      (dictLookup k (initBalances (calcScope s cid types))).map (fun b =>
        { account := b.account,
          debit_total := b.debit_total +
            txnsDebit k (s.transactions.filter (postedInRange cid date_1900_01_01 asof)),
          credit_total := b.credit_total +
            txnsCredit k (s.transactions.filter (postedInRange cid date_1900_01_01 asof)),
          balance := (b.debit_total +
            txnsDebit k (s.transactions.filter (postedInRange cid date_1900_01_01 asof))) -
            (b.credit_total +
            txnsCredit k (s.transactions.filter (postedInRange cid date_1900_01_01 asof))) }) := by
  rw [calculate_account_balances, dictLookup_balanceFold,
    txnsDebit_perm k (pipeline_perm s cid date_1900_01_01 asof),
    txnsCredit_perm k (pipeline_perm s cid date_1900_01_01 asof)]

/-! ## Claim theorems -/

/-- C1: for every `create_transaction` call, and for every
`update_transaction` call given a replacement line set, validation fails
fast in order: `InsufficientLines` when fewer than 2 lines; else
`NotBalanced` carrying the nonzero sum when the amounts do not sum to 0;
else, at the first offending line, `NotFound` when its account is absent
from the tenant or `ValidationError` when it is inactive; and the
transaction is persisted only when every check passes. -/
theorem c1_validation_order_and_gating
    (s : Ledger) (cid uid newId : Nat) (tdate : Int) (descr : String)
    (inputs : List LineInput) (reference : Option String) (posted : Bool)
    (tid : Nat) (odate : Option Int) (odescr oref : Option String) :
    (inputs.length < 2 →
      create_transaction s cid uid tdate descr inputs reference posted newId =
        .error .insufficientLines) ∧
    (¬ inputs.length < 2 → (inputs.map (fun li => li.amount)).sum ≠ 0 →
      create_transaction s cid uid tdate descr inputs reference posted newId =
        .error (.notBalanced ((inputs.map (fun li => li.amount)).sum))) ∧
    (¬ inputs.length < 2 → (inputs.map (fun li => li.amount)).sum = 0 →
      ∀ pre l rest, inputs.map toTxnLine = pre ++ l :: rest →
        (∀ l' ∈ pre, GoodLine s cid l') →
        (account_get_by_id_for_tenant s l.account_id cid = none →
          create_transaction s cid uid tdate descr inputs reference posted newId =
            .error (.notFound "Account" l.account_id)) ∧
        (∀ a, account_get_by_id_for_tenant s l.account_id cid = some a → a.is_active = false →
          create_transaction s cid uid tdate descr inputs reference posted newId =
            .error (.validationError (inactiveMsg a)))) ∧
    (∀ s' t,
      create_transaction s cid uid tdate descr inputs reference posted newId = .ok (s', t) →
      (2 ≤ inputs.length ∧ (inputs.map (fun li => li.amount)).sum = 0 ∧
        (∀ l ∈ inputs.map toTxnLine, GoodLine s cid l)) ∧
      s'.transactions = s.transactions ++ [t]) ∧
    (∀ t0, get_with_lines s tid cid = some t0 → t0.is_posted = false →
      (inputs.length < 2 →
        update_transaction s cid tid odate odescr oref (some inputs) =
          .error .insufficientLines) ∧
      (¬ inputs.length < 2 → (inputs.map (fun li => li.amount)).sum ≠ 0 →
        update_transaction s cid tid odate odescr oref (some inputs) =
          .error (.notBalanced ((inputs.map (fun li => li.amount)).sum))) ∧
      (¬ inputs.length < 2 → (inputs.map (fun li => li.amount)).sum = 0 →
        ∀ pre l rest, inputs.map toTxnLine = pre ++ l :: rest →
          (∀ l' ∈ pre, GoodLine s cid l') →
          (account_get_by_id_for_tenant s l.account_id cid = none →
            update_transaction s cid tid odate odescr oref (some inputs) =
              .error (.notFound "Account" l.account_id)) ∧
          (∀ a, account_get_by_id_for_tenant s l.account_id cid = some a →
            a.is_active = false →
            update_transaction s cid tid odate odescr oref (some inputs) =
              .error (.validationError (inactiveMsg a)))) ∧
      (∀ r, update_transaction s cid tid odate odescr oref (some inputs) = .ok r →
        2 ≤ inputs.length ∧ (inputs.map (fun li => li.amount)).sum = 0 ∧
          (∀ l ∈ inputs.map toTxnLine, GoodLine s cid l))) := by
  have hlen : (inputs.map toTxnLine).length = inputs.length := List.length_map _ _
  refine ⟨?_, ?_, ?_, ?_, ?_⟩
  · intro h
    exact create_err_lines (validate_lines_insufficient (by omega))
  · intro h1 h2
    have hv := validate_lines_notBalanced
      (show ¬ (inputs.map toTxnLine).length < 2 by omega)
      (show ((inputs.map toTxnLine).map (fun l => l.amount)).sum ≠ 0 by
        rw [map_amount_toTxnLine]; exact h2)
    rw [map_amount_toTxnLine] at hv
    exact create_err_lines hv
  · intro h1 h2 pre l rest hsplit hpre
    have hv : validate_transaction_lines (inputs.map toTxnLine) = .ok () := by
      rw [validate_lines_ok_iff, map_amount_toTxnLine]
      exact ⟨by omega, h2⟩
    constructor
    · intro hnone
      have ha := validate_accounts_err_notFound s cid pre l rest hpre hnone
      rw [← hsplit] at ha
      exact create_err_accounts hv ha
    · intro a hsome hact
      have ha := validate_accounts_err_inactive s cid pre l rest a hpre hsome hact
      rw [← hsplit] at ha
      exact create_err_accounts hv ha
  · intro s' t hok
    cases hv : validate_transaction_lines (inputs.map toTxnLine) with
    | error e => rw [create_err_lines hv] at hok; cases hok
    | ok u =>
      cases u
      cases ha : validate_accounts_exist s cid (inputs.map toTxnLine) with
      | error e => rw [create_err_accounts hv ha] at hok; cases hok
      | ok u2 =>
        cases u2
        rw [create_ok_eq hv ha] at hok
        have hok2 := Except.ok.inj hok
        injection hok2 with hs' ht
        have hv2 := (validate_lines_ok_iff _).mp hv
        rw [map_amount_toTxnLine] at hv2
        rw [List.length_map] at hv2
        refine ⟨⟨hv2.1, hv2.2, (validate_accounts_ok_iff s cid _).mp ha⟩, ?_⟩
        subst hs'
        subst ht
        rfl
  · intro t0 hfind hdraft
    refine ⟨?_, ?_, ?_, ?_⟩
    · intro h
      exact update_some_err_lines hfind hdraft (validate_lines_insufficient (by omega))
    · intro h1 h2
      have hv := validate_lines_notBalanced
        (show ¬ (inputs.map toTxnLine).length < 2 by omega)
        (show ((inputs.map toTxnLine).map (fun l => l.amount)).sum ≠ 0 by
          rw [map_amount_toTxnLine]; exact h2)
      rw [map_amount_toTxnLine] at hv
      exact update_some_err_lines hfind hdraft hv
    · intro h1 h2 pre l rest hsplit hpre
      have hv : validate_transaction_lines (inputs.map toTxnLine) = .ok () := by
        rw [validate_lines_ok_iff, map_amount_toTxnLine]
        exact ⟨by omega, h2⟩
      constructor
      · intro hnone
        have ha := validate_accounts_err_notFound s cid pre l rest hpre hnone
        rw [← hsplit] at ha
        exact update_some_err_accounts hfind hdraft hv ha
      · intro a hsome hact
        have ha := validate_accounts_err_inactive s cid pre l rest a hpre hsome hact
        rw [← hsplit] at ha
        exact update_some_err_accounts hfind hdraft hv ha
    · intro r hok
      cases hv : validate_transaction_lines (inputs.map toTxnLine) with
      | error e => rw [update_some_err_lines hfind hdraft hv] at hok; cases hok
      | ok u =>
        cases u
        cases ha : validate_accounts_exist s cid (inputs.map toTxnLine) with
        | error e => rw [update_some_err_accounts hfind hdraft hv ha] at hok; cases hok
        | ok u2 =>
          cases u2
          have hv2 := (validate_lines_ok_iff _).mp hv
          rw [map_amount_toTxnLine] at hv2
          exact ⟨by omega, hv2.2, (validate_accounts_ok_iff s cid _).mp ha⟩

/-- Witness for C1 at concrete inputs: a single-line submission fails
with `InsufficientLines`, and a successful creation implies its checks
passed. -/
theorem c1_witness :
    create_transaction wLedger 1 1 700002 "single" [⟨1, 5, none⟩] none false 3 =
      .error .insufficientLines ∧
    create_transaction wLedger 1 1 700002 "unbalanced" [⟨1, 5, none⟩, ⟨2, -4, none⟩]
      none false 3 = .error (.notBalanced 1) := by
  constructor
  · exact (c1_validation_order_and_gating wLedger 1 1 3 700002 "single"
      [⟨1, 5, none⟩] none false 1 none none none).1 (by decide)
  · have h := (c1_validation_order_and_gating wLedger 1 1 3 700002 "unbalanced"
      [⟨1, 5, none⟩, ⟨2, -4, none⟩] none false 1 none none none).2.1
      (by decide) (by decide)
    simpa using h

/-- C2: a posted transaction is immutable: any update attempt and any
delete attempt fail with the respective `ValidationError`, and the
stored transaction (header and lines) is unchanged afterwards. -/
theorem c2_posted_immutable (s : Ledger) (cid tid : Nat) (t : Txn)
    (odate : Option Int) (odescr oref : Option String) (olines : Option (List LineInput))
    (hfind : get_with_lines s tid cid = some t) (hposted : t.is_posted = true) :
    update_transaction s cid tid odate odescr oref olines =
      .error (.validationError "Cannot update a posted transaction") ∧
    delete_transaction s cid tid =
      .error (.validationError "Cannot delete a posted transaction") ∧
    get_with_lines (ledgerAfter s (update_transaction s cid tid odate odescr oref olines))
      tid cid = some t ∧
    get_with_lines (ledgerAfterDelete s (delete_transaction s cid tid)) tid cid = some t := by
  have h1 : update_transaction s cid tid odate odescr oref olines =
      .error (.validationError "Cannot update a posted transaction") := by
    simp only [update_transaction, hfind, hposted, if_true]
  have h2 : delete_transaction s cid tid =
      .error (.validationError "Cannot delete a posted transaction") := by
    simp only [delete_transaction, hfind, hposted, if_true]
  refine ⟨h1, h2, ?_, ?_⟩
  · rw [h1]
    exact hfind
  · rw [h2]
    exact hfind

/-- Witness for C2: the posted demo transaction can be neither updated
nor deleted, and is still stored unchanged afterwards. -/
theorem c2_witness :
    update_transaction wLedger 1 1 none (some "new") none none =
      .error (.validationError "Cannot update a posted transaction") ∧
    delete_transaction wLedger 1 1 =
      .error (.validationError "Cannot delete a posted transaction") ∧
    get_with_lines (ledgerAfter wLedger (update_transaction wLedger 1 1 none (some "new")
      none none)) 1 1 = some wTxnPosted ∧
    get_with_lines (ledgerAfterDelete wLedger (delete_transaction wLedger 1 1)) 1 1 =
      some wTxnPosted :=
  c2_posted_immutable wLedger 1 1 wTxnPosted none (some "new") none none
    (by decide) (by decide)

/-- C6 (code bug): `get_unposted` filters on `is_posted` — the same
predicate as `get_posted` — so on a ledger with one draft and one posted
transaction it returns the posted one and omits the draft, contradicting
its own docstring and the draft-only listing the claim describes. -/
theorem c6_get_unposted_returns_posted :
    get_unposted wLedger 1 0 100 = [wTxnPosted] ∧
    get_posted wLedger 1 0 100 = [wTxnPosted] ∧
    wTxnDraft ∈ wLedger.transactions ∧ wTxnDraft.company_id = 1 ∧
    wTxnDraft.is_posted = false ∧ wTxnPosted.is_posted = true ∧
    wTxnDraft ∉ get_unposted wLedger 1 0 100 := by
  decide

/-- C8: a successfully created transaction, fetched back by its new id,
has its submitted lines in order: `line_order` is `0..n-1` by input
position, and account ids, amounts and descriptions are identical to the
submitted ones. -/
theorem c8_roundtrip (s : Ledger) (cid uid newId : Nat) (tdate : Int) (descr : String)
    (inputs : List LineInput) (reference : Option String) (posted : Bool)
    (s' : Ledger) (t : Txn)
    (hok : create_transaction s cid uid tdate descr inputs reference posted newId = .ok (s', t))
    (hfresh : ∀ t0 ∈ s.transactions, t0.id ≠ newId) :
    get_with_lines s' newId cid = some t ∧
    t.lines.map (fun l => l.account_id) = inputs.map (fun li => li.account_id) ∧
    t.lines.map (fun l => l.amount) = inputs.map (fun li => li.amount) ∧
    t.lines.map (fun l => l.description) = inputs.map (fun li => li.description) ∧
    t.lines.map (fun l => l.line_order) = List.range inputs.length := by
  cases hv : validate_transaction_lines (inputs.map toTxnLine) with
  | error e => rw [create_err_lines hv] at hok; cases hok
  | ok u =>
    cases u
    cases ha : validate_accounts_exist s cid (inputs.map toTxnLine) with
    | error e => rw [create_err_accounts hv ha] at hok; cases hok
    | ok u2 =>
      cases u2
      rw [create_ok_eq hv ha] at hok
      have hok2 := Except.ok.inj hok
      have hs' : (repo_create_transaction s
          { id := 0, company_id := cid, transaction_date := tdate, description := descr,
            reference := reference, is_posted := posted, created_by_id := uid,
            lines := inputs.map toTxnLine } newId).1 = s' := congrArg Prod.fst hok2
      have ht : (repo_create_transaction s
          { id := 0, company_id := cid, transaction_date := tdate, description := descr,
            reference := reference, is_posted := posted, created_by_id := uid,
            lines := inputs.map toTxnLine } newId).2 = t := congrArg Prod.snd hok2
      subst hs'
      subst ht
      refine ⟨repo_create_fetch s _ newId cid hfresh rfl, ?_⟩
      rw [repo_create_snd_fields]
      dsimp only
      rw [resequence_map_account, resequence_map_amount, resequence_map_description,
        resequence_map_order, List.map_map, List.map_map, List.map_map, List.length_map]
      exact ⟨rfl, rfl, rfl, rfl⟩

/-- Witness for C8: creating a two-line transaction in the demo ledger
with fresh id 3 and fetching it back preserves order, amounts and
descriptions. -/
theorem c8_witness :
    get_with_lines wLedgerAfterCreate 3 1 = some wTxnCreated ∧
    wTxnCreated.lines.map (fun l => l.amount) = [7, -7] ∧
    wTxnCreated.lines.map (fun l => l.line_order) = [0, 1] := by
  have hok : create_transaction wLedger 1 1 700002 "pair" [⟨1, 7, some "d"⟩, ⟨2, -7, none⟩]
      none false 3 = .ok (wLedgerAfterCreate, wTxnCreated) := by rfl
  have h := c8_roundtrip wLedger 1 1 3 700002 "pair" [⟨1, 7, some "d"⟩, ⟨2, -7, none⟩]
    none false wLedgerAfterCreate wTxnCreated hok (by decide)
  refine ⟨h.1, ?_, ?_⟩
  · have := h.2.2.1
    simpa using this
  · have := h.2.2.2.2
    simpa using this


/-- C5 (amended): the Balance Calculator folds exactly the company's
posted transactions with `date(1900,1,1) ≤ transaction_date ≤ as_of_date`
— transactions dated before 1900-01-01 are excluded by the hard lower
bound — into each in-scope account's `debit_total` (sum of positive line
amounts), `credit_total` (sum of absolute values of negative line
amounts) and `balance = debit_total - credit_total`; draft transactions
contribute nothing. -/
theorem c5_balance_calculator_characterization
    (s : Ledger) (cid : Nat) (asof : Int) (types : Option (List AccountType))
    (k : Nat) (b : AccountBalance)
    (h : dictLookup k (calculate_account_balances s cid asof types) = some b) :
    b.debit_total =
      txnsDebit k (s.transactions.filter (postedInRange cid date_1900_01_01 asof)) ∧
    b.credit_total =
      txnsCreditNeg k (s.transactions.filter (postedInRange cid date_1900_01_01 asof)) ∧
    b.balance = b.debit_total - b.credit_total := by
  rw [calc_lookup] at h
  cases hl : dictLookup k (initBalances (calcScope s cid types)) with
  | none => rw [hl] at h; cases h
  | some b0 =>
    rw [hl, Option.map_some'] at h
    obtain ⟨hd0, hc0, _⟩ := dictLookup_initBalances_zero hl
    obtain rfl := (Option.some_injective _ h).symm
    rw [← txnsCredit_eq_neg]
    refine ⟨?_, ?_, ?_⟩
    · simp [hd0]
    · simp [hc0]
    · simp

/-- C5 counterexample: in a ledger whose only posted, balanced
transaction is dated 1899-12-31 (ordinal 693595), the calculator reports
`debit_total = 0` for the debited account, while the claim's
"no lower bound on transaction_date" reading requires 100. -/
theorem c5_counterexample :
    (dictLookup 1 (calculate_account_balances cex5Ledger 1 700000 none)).map
      (fun b => b.debit_total) = some 0 ∧
    txnsDebit 1 (cex5Ledger.transactions.filter (fun t =>
      t.company_id == 1 && decide (t.transaction_date ≤ 700000) && t.is_posted)) = 100 ∧
    (0 : Int) ≠ 100 := by
  refine ⟨by decide, by decide, by decide⟩

/-- Witness for C5 at the demo ledger: the stored entry for account 1
matches the filtered sums. -/
theorem c5_witness :
    (100 : Int) =
      txnsDebit 1 (wLedger.transactions.filter (postedInRange 1 date_1900_01_01 800000)) ∧
    (0 : Int) =
      txnsCreditNeg 1 (wLedger.transactions.filter (postedInRange 1 date_1900_01_01 800000)) := by
  have h := c5_balance_calculator_characterization wLedger 1 800000 none 1
    { account := wAcc1, debit_total := 100, credit_total := 0, balance := 100 } (by decide)
  exact ⟨h.1, h.2.1⟩


/-- C3 (amended): whenever every contributing posted transaction both
balances individually and references only accounts present in the
tenant's fetched chart, the trial balance has `total_debits =
total_credits`, its rows are exactly the non-zero-balance accounts, and
they are listed sorted by account code. -/
theorem c3_trial_balance_balanced (s : Ledger) (cid : Nat) (asof : Int)
    (hscope : ∀ t ∈ s.transactions, postedInRange cid date_1900_01_01 asof t = true →
      ∀ l ∈ t.lines,
        l.account_id ∈ (account_get_all_for_tenant s cid 0 10000).map (fun a => a.id))
    (hbal : ∀ t ∈ s.transactions, postedInRange cid date_1900_01_01 asof t = true →
      (t.lines.map (fun l => l.amount)).sum = 0) :
    (generate_trial_balance s cid asof).total_debits =
      (generate_trial_balance s cid asof).total_credits ∧
    SortedBy balCodeLt (generate_trial_balance s cid asof).accounts ∧
    (∀ b ∈ (generate_trial_balance s cid asof).accounts, b.balance ≠ 0) := by
  have hside : ∀ t ∈ (get_by_date_range s cid date_1900_01_01 asof).filter
      (fun t => t.is_posted),
      (∀ l ∈ t.lines,
        dictContains l.account_id (initBalances (calcScope s cid none)) = true) ∧
      (t.lines.map (fun l => l.amount)).sum = 0 := by
    intro t ht
    have hmem := (pipeline_perm s cid date_1900_01_01 asof).mem_iff.mp ht
    rw [List.mem_filter] at hmem
    refine ⟨?_, hbal t hmem.1 hmem.2⟩
    intro l hl
    rw [dictContains_iff_mem, mem_keysList_initBalances]
    exact hscope t hmem.1 hmem.2 l hl
  have hdc : dictDC (calculate_account_balances s cid asof none) = 0 := by
    rw [calculate_account_balances, balanceFold, dictDC_finalize,
      dictDC_foldl_applyTxn _ _ hside, dictDC_initBalances]
  have hvals : ∀ b ∈ (calculate_account_balances s cid asof none).map Prod.snd,
      b.balance = b.debit_total - b.credit_total := by
    rw [calculate_account_balances, balanceFold]
    exact finalize_values_balance _
  have hsumv : (((calculate_account_balances s cid asof none).map Prod.snd).map
      (fun b => b.debit_total - b.credit_total)).sum = 0 := by
    rw [List.map_map]
    exact hdc
  have hfe : ((((calculate_account_balances s cid asof none).map Prod.snd).filter
      (fun b => b.balance != 0)).map (fun b => b.debit_total - b.credit_total)).sum = 0 := by
    rw [sum_map_filter_of_zero (fun b => b.balance != 0)
      (fun b => b.debit_total - b.credit_total)
      ((calculate_account_balances s cid asof none).map Prod.snd) ?_]
    · exact hsumv
    · intro b hb hbf
      have hb0 : b.balance = 0 := by simpa using hbf
      show b.debit_total - b.credit_total = 0
      rw [← hvals b hb, hb0]
  have hperm := perm_sortBy balCodeLt
    (((calculate_account_balances s cid asof none).map Prod.snd).filter
      (fun b => b.balance != 0))
  refine ⟨?_, ?_, ?_⟩
  · simp only [generate_trial_balance]
    have hsub : ((sortBy balCodeLt
        (((calculate_account_balances s cid asof none).map Prod.snd).filter
          (fun b => b.balance != 0))).map (fun b => b.debit_total)).sum -
        ((sortBy balCodeLt
        (((calculate_account_balances s cid asof none).map Prod.snd).filter
          (fun b => b.balance != 0))).map (fun b => b.credit_total)).sum = 0 := by
      rw [← sum_map_sub]
      rw [(hperm.map (fun b => b.debit_total - b.credit_total)).sum_eq]
      exact hfe
    omega
  · simp only [generate_trial_balance]
    exact sorted_sortBy balCodeLt
      (fun a b c h1 h2 => codeLt_trans h1 h2) (fun a b h => codeLt_asymm h) _
  · simp only [generate_trial_balance]
    intro b hb
    have := (hperm.mem_iff.mp hb)
    rw [List.mem_filter] at this
    simpa using this.2


/-- C3 counterexample: in a ledger whose only posted transaction balances
individually but has a credit line referencing a missing account (id 9),
the trial balance reports `total_debits = 100` and `total_credits = 0`,
refuting the claim as stated (its only hypothesis — per-transaction
balance — holds here). -/
theorem c3_counterexample :
    (∀ t ∈ cex3Ledger.transactions, t.is_posted = true →
      (t.lines.map (fun l => l.amount)).sum = 0) ∧
    (generate_trial_balance cex3Ledger 1 800000).total_debits = 100 ∧
    (generate_trial_balance cex3Ledger 1 800000).total_credits = 0 ∧
    (100 : Int) ≠ 0 := by
  refine ⟨by decide, by decide, by decide, by decide⟩

/-- Witness for C3 at the demo ledger, every line of which references an
existing account: the trial balance totals agree. -/
theorem c3_witness :
    (generate_trial_balance wLedger 1 800000).total_debits =
      (generate_trial_balance wLedger 1 800000).total_credits :=
  (c3_trial_balance_balanced wLedger 1 800000 (by decide) (by decide)).1


/-! ## Zero-line and out-of-scope-line lemmas -/

theorem contains_of_mem {l : List Nat} {k : Nat} (h : k ∈ l) : l.contains k = true := by
  induction l with
  | nil => cases h
  | cons x xs ih =>
    rcases List.mem_cons.mp h with rfl | hm
    · simp [List.contains_cons]
    · simp only [List.contains_cons, Bool.or_eq_true]
      refine Or.inr ?_
      exact ih hm

theorem linesAgg_insert_zero (k : Nat) (lpre lpost : List TransactionLine)
    (z : TransactionLine) (hz : z.amount = 0) :
    linesDebit k (lpre ++ z :: lpost) = linesDebit k (lpre ++ lpost) ∧
    linesCredit k (lpre ++ z :: lpost) = linesCredit k (lpre ++ lpost) := by
  constructor
  · rw [linesDebit, linesDebit, List.filter_append, List.filter_append, List.filter_cons]
    rw [if_neg (by simp [hz])]
  · rw [linesCredit, linesCredit, List.filter_append, List.filter_append, List.filter_cons]
    by_cases hk : (z.account_id == k) = true
    · rw [if_pos (by simp [hk, hz])]
      simp [hz]
    · rw [if_neg (by simp [hk])]

theorem txnsAgg_insert_zero (k : Nat) (pred : Txn → Bool) (pre post : List Txn) (t : Txn)
    (lpre lpost : List TransactionLine) (z : TransactionLine) (hz : z.amount = 0)
    (hlines : t.lines = lpre ++ lpost)
    (hpred : pred { t with lines := lpre ++ z :: lpost } = pred t) :
    txnsDebit k ((pre ++ { t with lines := lpre ++ z :: lpost } :: post).filter pred) =
      txnsDebit k ((pre ++ t :: post).filter pred) ∧
    txnsCredit k ((pre ++ { t with lines := lpre ++ z :: lpost } :: post).filter pred) =
      txnsCredit k ((pre ++ t :: post).filter pred) := by
  have hdl : linesDebit k ({ t with lines := lpre ++ z :: lpost }).lines =
      linesDebit k t.lines := by
    show linesDebit k (lpre ++ z :: lpost) = linesDebit k t.lines
    rw [hlines]
    exact (linesAgg_insert_zero k lpre lpost z hz).1
  have hcl : linesCredit k ({ t with lines := lpre ++ z :: lpost }).lines =
      linesCredit k t.lines := by
    show linesCredit k (lpre ++ z :: lpost) = linesCredit k t.lines
    rw [hlines]
    exact (linesAgg_insert_zero k lpre lpost z hz).2
  constructor
  · rw [txnsDebit, txnsDebit, List.filter_append, List.filter_append, List.filter_cons,
      List.filter_cons, hpred]
    by_cases hp : pred t = true
    · rw [if_pos hp, if_pos hp]
      simp only [List.map_append, List.sum_append, List.map_cons, List.sum_cons]
      rw [hdl]
    · rw [if_neg hp, if_neg hp]
  · rw [txnsCredit, txnsCredit, List.filter_append, List.filter_append, List.filter_cons,
      List.filter_cons, hpred]
    by_cases hp : pred t = true
    · rw [if_pos hp, if_pos hp]
      simp only [List.map_append, List.sum_append, List.map_cons, List.sum_cons]
      rw [hcl]
    · rw [if_neg hp, if_neg hp]

theorem linesAgg_dropNotIn (k : Nat) (ids : List Nat) (hk : ids.contains k = true)
    (ls : List TransactionLine) :
    linesDebit k (ls.filter (fun l => ids.contains l.account_id)) = linesDebit k ls ∧
    linesCredit k (ls.filter (fun l => ids.contains l.account_id)) = linesCredit k ls := by
  constructor
  · rw [linesDebit, linesDebit, List.filter_filter]
    refine congrArg _ (congrArg _ (List.filter_congr ?_))
    intro l _
    by_cases hl : (l.account_id == k) = true
    · have hmem : l.account_id ∈ ids := by
        rw [eq_of_beq hl]
        simpa using hk
      simp [hl, hmem]
    · simp [hl]
  · rw [linesCredit, linesCredit, List.filter_filter]
    refine congrArg _ (congrArg _ (List.filter_congr ?_))
    intro l _
    by_cases hl : (l.account_id == k) = true
    · have hmem : l.account_id ∈ ids := by
        rw [eq_of_beq hl]
        simpa using hk
      simp [hl, hmem]
    · simp [hl]

theorem txnsAgg_dropNotIn (k : Nat) (ids : List Nat) (hk : ids.contains k = true)
    (pred : Txn → Bool) (hpred : ∀ t, pred (dropLinesNotIn ids t) = pred t) (ts : List Txn) :
    txnsDebit k ((ts.map (dropLinesNotIn ids)).filter pred) =
      txnsDebit k (ts.filter pred) ∧
    txnsCredit k ((ts.map (dropLinesNotIn ids)).filter pred) =
      txnsCredit k (ts.filter pred) := by
  have hfm : (ts.map (dropLinesNotIn ids)).filter pred =
      (ts.filter pred).map (dropLinesNotIn ids) := by
    rw [List.filter_map]
    refine congrArg _ (List.filter_congr ?_)
    intro t _
    exact hpred t
  constructor
  · rw [hfm, txnsDebit, txnsDebit, List.map_map]
    refine congrArg _ (List.map_congr_left ?_)
    intro t _
    show linesDebit k (dropLinesNotIn ids t).lines = linesDebit k t.lines
    exact (linesAgg_dropNotIn k ids hk t.lines).1
  · rw [hfm, txnsCredit, txnsCredit, List.map_map]
    refine congrArg _ (List.map_congr_left ?_)
    intro t _
    show linesCredit k (dropLinesNotIn ids t).lines = linesCredit k t.lines
    exact (linesAgg_dropNotIn k ids hk t.lines).2


/-- C9: a zero-amount line contributes to neither `debit_total` nor
`credit_total`: inserting such a line into a posted transaction leaves
every account's totals and balance in the Balance Calculator unchanged,
while the extended line set still passes creation validation whenever it
has at least 2 lines and sums to zero. -/
theorem c9_zero_amount_line (s : Ledger) (cid : Nat) (asof : Int)
    (types : Option (List AccountType)) (pre post : List Txn) (t : Txn)
    (lpre lpost : List TransactionLine) (z : TransactionLine)
    (hs : s.transactions = pre ++ t :: post) (hlines : t.lines = lpre ++ lpost)
    (hz : z.amount = 0) (hposted : t.is_posted = true) :
    calculate_account_balances
      { accounts := s.accounts,
        transactions := pre ++ { t with lines := lpre ++ z :: lpost } :: post }
      cid asof types = calculate_account_balances s cid asof types ∧
    (2 ≤ (lpre ++ z :: lpost).length →
      ((lpre ++ z :: lpost).map (fun l => l.amount)).sum = 0 →
      validate_transaction_lines (lpre ++ z :: lpost) = .ok ()) := by
  constructor
  · apply dict_ext
    · rw [calculate_account_balances, calculate_account_balances, keysList_balanceFold,
        keysList_balanceFold]
      rfl
    · rw [calculate_account_balances, keysList_balanceFold]
      exact keysList_initBalances_nodup _
    · intro k
      rw [calc_lookup, calc_lookup]
      have hsc : calcScope
          { accounts := s.accounts,
            transactions := pre ++ { t with lines := lpre ++ z :: lpost } :: post }
          cid types = calcScope s cid types := rfl
      rw [hsc]
      have hpred : postedInRange cid date_1900_01_01 asof
          { t with lines := lpre ++ z :: lpost } =
          postedInRange cid date_1900_01_01 asof t := rfl
      have h2 := txnsAgg_insert_zero k (postedInRange cid date_1900_01_01 asof)
        pre post t lpre lpost z hz hlines hpred
      have hproj : ({ accounts := s.accounts, transactions := pre ++ { t with lines := lpre ++ z :: lpost } :: post } : Ledger).transactions = pre ++ { t with lines := lpre ++ z :: lpost } :: post := rfl
      rw [hproj, hs, h2.1, h2.2]
  · intro hlen hsum
    rw [validate_lines_ok_iff]
    exact ⟨hlen, hsum⟩

/-- Witness for C9: inserting a zero line into the posted demo
transaction leaves the demo ledger's as-of balances unchanged. -/
theorem c9_witness :
    calculate_account_balances
      { accounts := wLedger.accounts,
        transactions := [{ wTxnPosted with
          lines := [⟨1, 100, none, 0⟩, ⟨1, 0, none, 0⟩, ⟨2, -100, none, 1⟩] }, wTxnDraft] }
      1 800000 none = calculate_account_balances wLedger 1 800000 none :=
  (c9_zero_amount_line wLedger 1 800000 none [] [wTxnDraft] wTxnPosted
    [⟨1, 100, none, 0⟩] [⟨2, -100, none, 1⟩] ⟨1, 0, none, 0⟩ rfl rfl rfl rfl).1

/-- C10: in both balance folds (the cumulative as-of calculation and the
income-statement period calculation), lines whose `account_id` is not
among the fold's in-scope accounts are silently skipped: removing all
such lines from every transaction leaves the computed result identical
(and the fold is a total function, so no error can be raised). -/
theorem c10_out_of_scope_lines_skipped (s : Ledger) (cid : Nat) (asof sd ed : Int)
    (types : Option (List AccountType)) :
    calculate_account_balances (dropOutOfScopeAsOf s cid types) cid asof types =
      calculate_account_balances s cid asof types ∧
    generate_income_statement (dropOutOfScopeIncome s cid) cid sd ed =
      generate_income_statement s cid sd ed := by
  constructor
  · apply dict_ext
    · rw [calculate_account_balances, calculate_account_balances, keysList_balanceFold,
        keysList_balanceFold]
      rfl
    · rw [calculate_account_balances, keysList_balanceFold]
      exact keysList_initBalances_nodup _
    · intro k
      rw [calc_lookup, calc_lookup]
      have hsc : calcScope (dropOutOfScopeAsOf s cid types) cid types =
        calcScope s cid types := rfl
      rw [hsc]
      cases hl : dictLookup k (initBalances (calcScope s cid types)) with
      | none => rfl
      | some b0 =>
        have hkeys : k ∈ keysList (initBalances (calcScope s cid types)) :=
          List.mem_map_of_mem Prod.fst (dictLookup_mem hl)
        have hkmem : k ∈ (calcScope s cid types).map (fun a => a.id) :=
          (mem_keysList_initBalances k _).mp hkeys
        have hk : ((calcScope s cid types).map (fun a => a.id)).contains k = true :=
          contains_of_mem hkmem
        have h2 := txnsAgg_dropNotIn k ((calcScope s cid types).map (fun a => a.id)) hk
          (postedInRange cid date_1900_01_01 asof) (fun t => rfl) s.transactions
        rw [show (dropOutOfScopeAsOf s cid types).transactions =
          s.transactions.map
            (dropLinesNotIn ((calcScope s cid types).map (fun a => a.id))) from rfl,
          h2.1, h2.2]
  · rw [generate_income_statement, generate_income_statement]
    refine congrArg (mkIncomeStatement sd ed) ?_
    have hsc : incomeScope (dropOutOfScopeIncome s cid) cid = incomeScope s cid := rfl
    rw [hsc]
    apply dict_ext
    · rw [keysList_balanceFold, keysList_balanceFold]
    · rw [keysList_balanceFold]
      exact keysList_initBalances_nodup _
    · intro k
      rw [dictLookup_balanceFold, dictLookup_balanceFold,
        txnsDebit_perm k (pipeline_perm (dropOutOfScopeIncome s cid) cid sd ed),
        txnsCredit_perm k (pipeline_perm (dropOutOfScopeIncome s cid) cid sd ed),
        txnsDebit_perm k (pipeline_perm s cid sd ed),
        txnsCredit_perm k (pipeline_perm s cid sd ed)]
      cases hl : dictLookup k (initBalances (incomeScope s cid)) with
      | none => rfl
      | some b0 =>
        have hkeys : k ∈ keysList (initBalances (incomeScope s cid)) :=
          List.mem_map_of_mem Prod.fst (dictLookup_mem hl)
        have hkmem : k ∈ (incomeScope s cid).map (fun a => a.id) :=
          (mem_keysList_initBalances k _).mp hkeys
        have hk : ((incomeScope s cid).map (fun a => a.id)).contains k = true :=
          contains_of_mem hkmem
        have h2 := txnsAgg_dropNotIn k ((incomeScope s cid).map (fun a => a.id)) hk
          (postedInRange cid sd ed) (fun t => rfl) s.transactions
        rw [show (dropOutOfScopeIncome s cid).transactions =
          s.transactions.map
            (dropLinesNotIn ((incomeScope s cid).map (fun a => a.id))) from rfl,
          h2.1, h2.2]


/-! ## Journal lemmas -/

theorem journalStep_none {accounts : List Account} {l : TransactionLine}
    (acc : List (Account × Int) × List (Account × Int))
    (hm : accountMapGet accounts l.account_id = none) :
    journalStep accounts acc l = acc := by
  rw [journalStep, hm]

theorem journalStep_pos {accounts : List Account} {l : TransactionLine} {a : Account}
    (acc : List (Account × Int) × List (Account × Int))
    (hm : accountMapGet accounts l.account_id = some a) (hpos : (0 : Int) < l.amount) :
    journalStep accounts acc l = (acc.1 ++ [(a, l.amount)], acc.2) := by
  rw [journalStep, hm]
  exact if_pos hpos

theorem journalStep_nonpos {accounts : List Account} {l : TransactionLine} {a : Account}
    (acc : List (Account × Int) × List (Account × Int))
    (hm : accountMapGet accounts l.account_id = some a) (hpos : ¬ (0 : Int) < l.amount) :
    journalStep accounts acc l = (acc.1, acc.2 ++ [(a, |l.amount|)]) := by
  rw [journalStep, hm]
  exact if_neg hpos

theorem journal_foldl_split (accounts : List Account) :
    ∀ (ls : List TransactionLine) (d c : List (Account × Int)),
      ls.foldl (journalStep accounts) (d, c) =
        (d ++ ls.filterMap (fun l =>
          match accountMapGet accounts l.account_id with
          | none => none
          | some a => if (0 : Int) < l.amount then some (a, l.amount) else none),
         c ++ ls.filterMap (fun l =>
          match accountMapGet accounts l.account_id with
          | none => none
          | some a => if (0 : Int) < l.amount then none else some (a, |l.amount|))) := by
  intro ls
  induction ls with
  | nil => intro d c; simp
  | cons l rest ih =>
    intro d c
    rw [List.foldl_cons, List.filterMap_cons, List.filterMap_cons]
    cases hm : accountMapGet accounts l.account_id with
    | none =>
      rw [journalStep_none _ hm]
      exact ih d c
    | some a =>
      by_cases hpos : (0 : Int) < l.amount
      · rw [journalStep_pos _ hm hpos, ih]
        simp [hpos, List.append_assoc]
      · rw [journalStep_nonpos _ hm hpos, ih]
        simp [hpos, List.append_assoc]

theorem mkJournalEntry_splits (accounts : List Account) (t : Txn) :
    (mkJournalEntry accounts t).transaction = t ∧
    (mkJournalEntry accounts t).debits = journalDebits accounts t ∧
    (mkJournalEntry accounts t).credits = journalCredits accounts t := by
  refine ⟨rfl, ?_, ?_⟩
  · show (t.lines.foldl (journalStep accounts) ([], [])).1 = journalDebits accounts t
    rw [journal_foldl_split, journalDebits]
    simp
  · show (t.lines.foldl (journalStep accounts) ([], [])).2 = journalCredits accounts t
    rw [journal_foldl_split, journalCredits]
    simp

/-- C7: the journal endpoint returns, most-recent-first (the reverse of
the ledger's ascending date order), exactly the company's transactions
with `start_date ≤ date ≤ end_date`, each split into its debit lines
(positive amounts) and credit lines (absolute values of the rest), each
paired with the resolved account (unresolvable lines are dropped). -/
theorem c7_journal_api (s : Ledger) (cid : Nat) (sd ed : Int) :
    (get_journal_api s cid sd ed).entries.map (fun e => e.transaction) =
      (sortBy txnDateLt (s.transactions.filter (fun t =>
        t.company_id == cid && decide (sd ≤ t.transaction_date)
          && decide (t.transaction_date ≤ ed)))).reverse ∧
    (∀ t : Txn, t ∈ (get_journal_api s cid sd ed).entries.map (fun e => e.transaction) ↔
      (t ∈ s.transactions ∧ t.company_id = cid ∧ sd ≤ t.transaction_date ∧
        t.transaction_date ≤ ed)) ∧
    (get_journal_api s cid sd ed).entries.Pairwise
      (fun e1 e2 => e2.transaction.transaction_date ≤ e1.transaction.transaction_date) ∧
    (∀ e ∈ (get_journal_api s cid sd ed).entries,
      e.debits = journalDebits (account_get_all_for_tenant s cid 0 10000) e.transaction ∧
      e.credits = journalCredits (account_get_all_for_tenant s cid 0 10000) e.transaction) := by
  have hentries : (get_journal_api s cid sd ed).entries =
      ((get_by_date_range s cid sd ed).map
        (mkJournalEntry (account_get_all_for_tenant s cid 0 10000))).reverse := rfl
  have hmap1 : (get_journal_api s cid sd ed).entries.map (fun e => e.transaction) =
      (get_by_date_range s cid sd ed).reverse := by
    rw [hentries, ← List.map_reverse, List.map_map]
    have : ((fun e : JournalEntry => e.transaction) ∘
        mkJournalEntry (account_get_all_for_tenant s cid 0 10000)) = id := by
      funext t
      rfl
    rw [this, List.map_id]
  refine ⟨?_, ?_, ?_, ?_⟩
  · rw [hmap1]
    rfl
  · intro t
    rw [hmap1, List.mem_reverse, get_by_date_range, mem_sortBy, List.mem_filter]
    simp
    intro _
    tauto
  · rw [hentries, List.pairwise_reverse, List.pairwise_map]
    refine List.Pairwise.imp ?_
      (sorted_sortBy txnDateLt (fun a b c h1 h2 => ?_) (fun a b h => ?_) _)
    · intro a b hab
      show (mkJournalEntry _ a).transaction.transaction_date ≤
        (mkJournalEntry _ b).transaction.transaction_date
      have : ¬ b.transaction_date < a.transaction_date := by
        simpa [txnDateLt] using hab
      show a.transaction_date ≤ b.transaction_date
      omega
    · simp only [txnDateLt, decide_eq_true_eq] at h1 h2 ⊢
      omega
    · simp only [txnDateLt, decide_eq_true_eq] at h ⊢
      simp only [decide_eq_false_iff_not]
      omega
  · intro e he
    rw [hentries, List.mem_reverse] at he
    obtain ⟨t, _, rfl⟩ := List.mem_map.mp he
    exact ⟨(mkJournalEntry_splits _ t).2.1, (mkJournalEntry_splits _ t).2.2⟩

/-- Witness for C7 at the demo ledger: the single in-range transaction's
entry carries the resolved debit and credit splits. -/
theorem c7_witness :
    (get_journal_api wLedger 1 700000 700000).entries.map (fun e => e.transaction) =
      [wTxnPosted] ∧
    ∀ e ∈ (get_journal_api wLedger 1 700000 700000).entries,
      e.debits = journalDebits (account_get_all_for_tenant wLedger 1 0 10000) e.transaction := by
  constructor
  · have h := (c7_journal_api wLedger 1 700000 700000).1
    rw [h]
    decide
  · intro e he
    exact ((c7_journal_api wLedger 1 700000 700000).2.2.2 e he).1


/-! ## General-ledger fold lemmas -/

theorem runningBalances_append (b : Int) :
    ∀ (xs : List Int) (y : Int),
      runningBalances b (xs ++ [y]) = runningBalances b xs ++ [b + xs.sum + y] := by
  intro xs
  induction xs generalizing b with
  | nil => intro y; simp [runningBalances]
  | cons x rest ih =>
    intro y
    rw [List.cons_append, runningBalances, runningBalances, ih]
    simp only [List.sum_cons, List.cons.injEq, true_and]
    congr 2
    ring

theorem GlInv_append (opening : Int) (st : List LedgerEntry × Int) (e : LedgerEntry)
    (h : GlInv opening st) (hbal : e.balance = st.2 + (e.debit - e.credit)) :
    GlInv opening (st.1 ++ [e], e.balance) := by
  obtain ⟨h1, h2⟩ := h
  constructor
  · show (st.1 ++ [e]).map (fun e => e.balance) =
      runningBalances opening ((st.1 ++ [e]).map (fun e => e.debit - e.credit))
    rw [List.map_append, List.map_append, List.map_cons, List.map_nil, List.map_cons,
      List.map_nil, runningBalances_append, ← h1]
    congr 2
    rw [hbal, h2]
  · show e.balance = opening + ((st.1 ++ [e]).map (fun e => e.debit - e.credit)).sum
    rw [List.map_append, List.sum_append, List.map_cons, List.map_nil, List.sum_cons,
      List.sum_nil, hbal, h2]
    omega

theorem glStep_inv (aid : Nat) (t : Txn) (opening : Int) (st : List LedgerEntry × Int)
    (l : TransactionLine) (h : GlInv opening st) : GlInv opening (glStep aid t st l) := by
  by_cases hk : (l.account_id == aid) = true
  · have hdelta : (if 0 < l.amount then l.amount else 0) -
        (if l.amount < 0 then |l.amount| else 0) = l.amount := by
      by_cases hpos : (0 : Int) < l.amount
      · rw [if_pos hpos, if_neg (by omega)]
        omega
      · by_cases hneg : l.amount < 0
        · rw [if_neg hpos, if_pos hneg, abs_of_neg hneg]
          omega
        · rw [if_neg hpos, if_neg hneg]
          omega
    have hstep : glStep aid t st l =
        (st.1 ++ [{ date := t.transaction_date, description := t.description,
                    reference := t.reference,
                    debit := if 0 < l.amount then l.amount else 0,
                    credit := if l.amount < 0 then |l.amount| else 0,
                    balance := st.2 + l.amount }], st.2 + l.amount) := by
      rw [glStep, if_pos hk]
    rw [hstep]
    refine GlInv_append opening st _ h ?_
    show st.2 + l.amount = st.2 + ((if 0 < l.amount then l.amount else 0) -
      (if l.amount < 0 then |l.amount| else 0))
    rw [hdelta]
  · have hstep : glStep aid t st l = st := by
      rw [glStep, if_neg hk]
    rw [hstep]
    exact h

theorem glLines_inv (aid : Nat) (t : Txn) (opening : Int) :
    ∀ (ls : List TransactionLine) (st : List LedgerEntry × Int), GlInv opening st →
      GlInv opening (ls.foldl (glStep aid t) st) := by
  intro ls
  induction ls with
  | nil => intro st h; exact h
  | cons l rest ih =>
    intro st h
    rw [List.foldl_cons]
    exact ih _ (glStep_inv aid t opening st l h)

theorem glApplyTxn_inv (aid : Nat) (opening : Int) (st : List LedgerEntry × Int) (t : Txn)
    (h : GlInv opening st) : GlInv opening (glApplyTxn aid st t) := by
  rw [glApplyTxn]
  by_cases hp : t.is_posted = true
  · rw [if_pos hp]
    exact glLines_inv aid t opening t.lines st h
  · rw [if_neg hp]
    exact h

theorem gl_fold_inv (aid : Nat) (opening : Int) :
    ∀ (ts : List Txn) (st : List LedgerEntry × Int), GlInv opening st →
      GlInv opening (ts.foldl (glApplyTxn aid) st) := by
  intro ts
  induction ts with
  | nil => intro st h; exact h
  | cons t rest ih =>
    intro st h
    rw [List.foldl_cons]
    exact ih _ (glApplyTxn_inv aid opening st t h)

theorem glStep_snd (aid : Nat) (t : Txn) :
    ∀ (ls : List TransactionLine) (st : List LedgerEntry × Int),
      (ls.foldl (glStep aid t) st).2 =
        st.2 + ((ls.filter (fun l => l.account_id == aid)).map (fun l => l.amount)).sum := by
  intro ls
  induction ls with
  | nil => intro st; simp
  | cons l rest ih =>
    intro st
    rw [List.foldl_cons, List.filter_cons]
    by_cases hk : (l.account_id == aid) = true
    · rw [if_pos hk, ih]
      rw [show (glStep aid t st l).2 = st.2 + l.amount from by rw [glStep, if_pos hk]]
      simp only [List.map_cons, List.sum_cons]
      omega
    · rw [if_neg hk, ih]
      rw [show glStep aid t st l = st from by rw [glStep, if_neg hk]]

theorem glApplyTxn_snd (aid : Nat) (st : List LedgerEntry × Int) (t : Txn) :
    (glApplyTxn aid st t).2 =
      st.2 + (if t.is_posted then txnAccountSum aid t else 0) := by
  rw [glApplyTxn]
  by_cases hp : t.is_posted = true
  · rw [if_pos hp, if_pos hp, glStep_snd, txnAccountSum]
  · rw [if_neg hp, if_neg hp]
    omega

theorem gl_fold_snd (aid : Nat) :
    ∀ (ts : List Txn) (st : List LedgerEntry × Int),
      (ts.foldl (glApplyTxn aid) st).2 =
        st.2 + (ts.map (fun t => if t.is_posted then txnAccountSum aid t else 0)).sum := by
  intro ts
  induction ts with
  | nil => intro st; simp
  | cons t rest ih =>
    intro st
    rw [List.foldl_cons, ih, glApplyTxn_snd]
    simp only [List.map_cons, List.sum_cons]
    omega

theorem txnAccountSum_eq_zero {aid : Nat} {t : Txn}
    (h : t.lines.any (fun l => l.account_id == aid) = false) : txnAccountSum aid t = 0 := by
  rw [txnAccountSum]
  have he : t.lines.filter (fun l => l.account_id == aid) = [] := by
    rw [List.filter_eq_nil_iff]
    exact List.any_eq_false.mp h
  rw [he]
  rfl

theorem gl_sum_movement (cid aid : Nat) (sd ed : Int) :
    ∀ l : List Txn,
      ((l.filter (fun t => decide (t.transaction_date ≤ ed) &&
          (decide (sd ≤ t.transaction_date) &&
           (t.company_id == cid && t.lines.any (fun l2 => l2.account_id == aid))))).map
          (fun t => if t.is_posted then txnAccountSum aid t else 0)).sum =
      ((l.filter (postedInRange cid sd ed)).map (txnAccountSum aid)).sum := by
  intro l
  induction l with
  | nil => rfl
  | cons t rest ih =>
    rw [List.filter_cons, List.filter_cons]
    by_cases hA : (t.company_id == cid) = true
    · by_cases hB : decide (sd ≤ t.transaction_date) = true
      · by_cases hC : decide (t.transaction_date ≤ ed) = true
        · by_cases hY : t.lines.any (fun l2 => l2.account_id == aid) = true
          · rw [if_pos (by simp [hA, hB, hC, hY])]
            by_cases hP : t.is_posted = true
            · rw [if_pos (by simp [postedInRange, hA, hB, hC, hP])]
              simp only [List.map_cons, List.sum_cons, if_pos hP, ih]
            · rw [if_neg (by simp [postedInRange, hP])]
              simp only [List.map_cons, List.sum_cons, if_neg hP, ih]
              ring
          · rw [if_neg (by simp [hY])]
            by_cases hP : t.is_posted = true
            · rw [if_pos (by simp [postedInRange, hA, hB, hC, hP])]
              simp only [List.map_cons, List.sum_cons, ih]
              rw [txnAccountSum_eq_zero (Bool.eq_false_iff.mpr hY)]
              ring
            · rw [if_neg (by simp [postedInRange, hP])]
              exact ih
        · rw [if_neg (by simp [hC]), if_neg (by simp [postedInRange, hC])]
          exact ih
      · rw [if_neg (by simp [hB]), if_neg (by simp [postedInRange, hB])]
        exact ih
    · rw [if_neg (by simp [hA]), if_neg (by simp [postedInRange, hA])]
      exact ih


/-- C4: for every successfully generated general-ledger report, the
opening balance is the Balance Calculator balance of the account at
`start_date - 1` day, the closing balance is the opening balance plus
the net movement of the in-range posted lines touching the account, each
entry's `balance` is the running cumulative sum in ascending processing
order, and with no entries the closing balance equals the opening one. -/
theorem c4_general_ledger (s : Ledger) (cid aid : Nat) (sd ed : Int)
    (r : GeneralLedgerReport)
    (hok : generate_general_ledger s cid aid sd ed = .ok r) :
    (∀ b, dictLookup aid (calculate_account_balances s cid (sd - 1) none) = some b →
      r.opening_balance = b.balance) ∧
    r.closing_balance = r.opening_balance + glMovement s cid aid sd ed ∧
    r.entries.map (fun e => e.balance) =
      runningBalances r.opening_balance (r.entries.map (fun e => e.debit - e.credit)) ∧
    (r.entries = [] → r.closing_balance = r.opening_balance) := by
  cases hacc : account_get_by_id_for_tenant s aid cid with
  | none =>
    rw [show generate_general_ledger s cid aid sd ed = .error (.notFound "Account" aid) from
      by rw [generate_general_ledger, hacc]] at hok
    cases hok
  | some account =>
    simp only [generate_general_ledger, hacc] at hok
    have hr := (Except.ok.inj hok).symm
    subst hr
    dsimp only
    have hinv : GlInv
        (match dictLookup aid (calculate_account_balances s cid (sd - 1) none) with
          | some b => b.balance
          | none => 0)
        ((sortBy txnDateLt (get_by_account s cid aid (some sd) (some ed))).foldl
          (glApplyTxn aid)
          ([], match dictLookup aid (calculate_account_balances s cid (sd - 1) none) with
            | some b => b.balance
            | none => 0)) := by
      refine gl_fold_inv aid _ _ _ ?_
      constructor
      · rfl
      · show _ = _ + (([] : List LedgerEntry).map (fun e => e.debit - e.credit)).sum
        simp
    refine ⟨?_, ?_, ?_, ?_⟩
    · intro b hb
      show (match dictLookup aid (calculate_account_balances s cid (sd - 1) none) with
        | some b => b.balance
        | none => 0) = b.balance
      rw [hb]
    · show ((sortBy txnDateLt (get_by_account s cid aid (some sd) (some ed))).foldl
        (glApplyTxn aid) ([], _)).2 = _ + glMovement s cid aid sd ed
      rw [gl_fold_snd]
      refine congrArg _ ?_
      have hperm1 : (sortBy txnDateLt (get_by_account s cid aid (some sd) (some ed))).Perm
          (get_by_account s cid aid (some sd) (some ed)) := perm_sortBy _ _
      have hperm2 := perm_sortBy txnDateLt
        (((s.transactions.filter (fun t => t.company_id == cid &&
          t.lines.any (fun l => l.account_id == aid))).filter
          (fun t => decide (sd ≤ t.transaction_date))).filter
          (fun t => decide (t.transaction_date ≤ ed)))
      have hsum1 := ((hperm1.trans hperm2).map
        (fun t => if t.is_posted then txnAccountSum aid t else 0)).sum_eq
      rw [hsum1, List.filter_filter, List.filter_filter, glMovement]
      have := gl_sum_movement cid aid sd ed s.transactions
      rw [← this]
      refine congrArg _ (congrArg _ (List.filter_congr ?_))
      intro t _
      rw [Bool.and_assoc]
    · exact hinv.1
    · intro he
      have h2 := hinv.2
      rw [he] at h2
      simpa using h2

/-- Witness for C4: the demo ledger's general ledger for account 1 over
[699999, 700050] closes at opening plus the period movement. -/
theorem c4_witness :
    wGLReport.closing_balance = wGLReport.opening_balance +
      glMovement wLedger 1 1 699999 700050 ∧
    wGLReport.entries.map (fun e => e.balance) =
      runningBalances wGLReport.opening_balance
        (wGLReport.entries.map (fun e => e.debit - e.credit)) := by
  have h := c4_general_ledger wLedger 1 1 699999 700050 wGLReport (by rfl)
  exact ⟨h.2.1, h.2.2.1⟩

end Ficus
